import Mathlib

/-!
# Verification of the DeadDocument rendering and pagination engine

This file embeds the document rendering and pagination core of the
repository in Lean 4 and proves the specification's claims about it.

The render orchestrator (`renderMatrix`, from the source file containing
`checkEqual` / `renderMatrix` / `renderMatrixAndSend`) and the JSX factory
(`JSXFactory.ts`) are embedded directly from source.  The collaborating
components that the orchestrator imports — the `FringeWalker`, the
`PagedDuplexStream` and the two format renderers — are not part of the
given sources; they are modelled from the specification (sections 3, 4.1,
4.2 and 4.3), and every such definition is marked `Modelled from the
spec:` in its doc comment.
-/

namespace DeadDocument

/-- Modelled from the spec: the enumerated node kinds of the Document
Tree (spec section 3); the source file `DeadDocument.ts` that declares
`NodeTag` is not among the given sources.  `TextNode` is the tag the
source `JSXFactory` uses for text leaves. -/
inductive NodeTag where
  | Root
  | Fragment
  | Heading
  | Paragraph
  | List
  | ListItem
  | Bold
  | Italic
  | Code
  | CodeBlock
  | Link
  | LineBreak
  | TextNode
deriving DecidableEq, Repr

/-- Modelled from the spec: a Document Tree node (spec section 3): a
tagged interior node with ordered children, or a leaf carrying a literal
string payload.  The `parent` back-reference of the source is
navigational only and is not needed by any claim, so nodes are modelled
as a pure tree; node *reference identity* is recovered as the node's
path from the root (two walkers over the same tree see the same
reference exactly when they are at the same path). -/
inductive DNode where
  | leaf (tag : NodeTag) (data : String)
  | node (tag : NodeTag) (children : List DNode)
deriving Repr

/-- The tag of a document node. -/
def DNode.tag : DNode → NodeTag
  | .leaf t _ => t
  | .node t _ => t

/-- Whether a node is a leaf (carries a payload, has no children). -/
def DNode.isLeaf : DNode → Bool
  | .leaf _ _ => true
  | .node _ _ => false

/-- A node reference: the path of child indices from the root.  Two
walkers over the same shared tree hold the same JavaScript object
reference iff they are at the same path, so `Object.is` on returned
nodes is path equality. -/
abbrev NodeRef := List Nat

/-- A traversal phase: entering or leaving a node (spec glossary,
"fringe event"). -/
inductive Phase where
  | enter
  | exit
deriving DecidableEq, Repr

/-- Modelled from the spec: a Renderer Contract (spec section 4.2): for a
node and a phase, the text fragment to emit (absence of a producer is
the empty fragment). -/
def Renderer := DNode → Phase → String

/-- One fringe event of the depth-first traversal: the reference of the
node concerned, the node itself, and the phase. -/
structure FringeEvent where
  ref : NodeRef
  node : DNode
  phase : Phase
deriving Repr

mutual
/-- Modelled from the spec: the sequence of fringe events of the
depth-first traversal (spec section 4.1): every node is entered, its
children are traversed in order, and the node is left. -/
def fringe : DNode → NodeRef → List FringeEvent
  | .leaf t s, p => [⟨p, .leaf t s, .enter⟩, ⟨p, .leaf t s, .exit⟩]
  | .node t cs, p =>
    ⟨p, .node t cs, .enter⟩ :: (fringeChildren cs p 0 ++ [⟨p, .node t cs, .exit⟩])

/-- Fringe events of a list of children, the i-th child at path `p ++ [i]`. -/
def fringeChildren : List DNode → NodeRef → Nat → List FringeEvent
  | [], _, _ => []
  | c :: rest, p, i => fringe c (p ++ [i]) ++ fringeChildren rest p (i + 1)
end

/-- The concatenation of the fragments a renderer emits over a sequence
of fringe events: the "full single-pass rendering" of that sequence. -/
def emitAll (R : Renderer) (evs : List FringeEvent) : String :=
  String.join (evs.map fun e => R e.node e.phase)

/-- The full single-pass rendering of a tree in one format: the
concatenation of all fragments over the complete traversal. -/
def fullRender (R : Renderer) (t : DNode) : String :=
  emitAll R (fringe t [])

/-- Modelled from the spec: the Paged Duplex Stream (spec section 4.3):
an append-only buffer bound to a maximum page size.  `committed` holds
the committed segments (each segment boundary is a safe cut point),
`pending` the uncommitted tail, and `forced` records that
`ensureNewPage` has forced the remaining content into a ready page. -/
structure PDS where
  sizeLimit : Nat
  committed : List String
  pending : String
  forced : Bool
deriving DecidableEq, Repr

namespace PDS

/-- A fresh stream with the given maximum page size. -/
def new (limit : Nat) : PDS := ⟨limit, [], "", false⟩

/-- All text currently held by the stream (committed then pending). -/
def content (s : PDS) : String := String.join s.committed ++ s.pending

/-- Length of the committed region. -/
def committedLength (s : PDS) : Nat := (String.join s.committed).length

/-- `append(text)`: appends to the pending (uncommitted) tail buffer. -/
def append (s : PDS) (t : String) : PDS := { s with pending := s.pending ++ t }

/-- `commit(node)`: marks the current end of the pending buffer as a safe
cut point (the node argument of the source is only bookkeeping and is
not modelled).  An empty pending tail adds no new segment. -/
def commit (s : PDS) : PDS :=
  if s.pending = "" then s
  else { s with committed := s.committed ++ [s.pending], pending := "" }

/-- `peekPage()`: a page is ready once the committed region's length
reaches the configured maximum, or the stream has been force-flushed. -/
def peekPage (s : PDS) : Bool :=
  s.sizeLimit ≤ s.committedLength || s.forced

/-- `ensureNewPage()`: forces any remaining committed and pending content
(even below the size limit) into a final ready page; does nothing when
the stream holds no content. -/
def ensureNewPage (s : PDS) : PDS :=
  if s.content = "" then s
  else
    { s with
      committed := s.committed ++ (if s.pending = "" then [] else [s.pending])
      pending := ""
      forced := true }

/-- Greedy page cut: extend `acc` with following committed segments as
long as the total stays at or below the limit. -/
def takeGreedy (limit : Nat) (acc : String) : List String → String × List String
  | [] => (acc, [])
  | c :: rest =>
    if acc.length + c.length ≤ limit then takeGreedy limit (acc ++ c) rest
    else (acc, c :: rest)

/-- `readPage()`: removes and returns the ready page, or nothing when no
page is ready.  A force-flushed stream yields all remaining content as
one page; otherwise the page is everything up to the best cut boundary
at or before the size limit (taking at least one segment). -/
def readPage (s : PDS) : Option (String × PDS) :=
  if s.peekPage then
    match s.committed with
    | [] => none
    | c :: rest =>
      if s.forced then
        some (String.join (c :: rest), { s with committed := [], forced := false })
      else
        let (page, rest') := takeGreedy s.sizeLimit c rest
        some (page, { s with committed := rest' })
  else none

/-- The source reads pages with a non-null assertion (`readPage()!`).
The orchestrator only does so after `ensureNewPage`, where the read can
come back empty only for a stream holding no content at all; that case
is modelled as the empty page with the stream unchanged. -/
def readPageBang (s : PDS) : String × PDS :=
  match s.readPage with
  | none => ("", s)
  | some r => r

/-- Streams reachable in a run never hold an empty committed segment. -/
def wfP (s : PDS) : Prop := ∀ c ∈ s.committed, c ≠ ""

end PDS

/-- Modelled from the spec: whether the Fringe Walker invokes the commit
hook after this event (spec section 4.1): after the emitted text of a
leaf/atomic node on entry, and on exit of every node. -/
def commitsAt (n : DNode) (ph : Phase) : Bool :=
  match ph with
  | .exit => true
  | .enter => n.isLeaf

/-- Modelled from the spec: one `increment` of the Fringe Walker (spec
section 4.1): advance by exactly one fringe event, append that event's
renderer fragment to the output stream, invoke the commit hook when the
event is a safe boundary, and return the node just processed — or the
terminal marker (`none`) once the traversal is complete.  The walker
state is the list of remaining fringe events. -/
def incrementW (R : Renderer) : List FringeEvent → PDS → Option NodeRef × List FringeEvent × PDS
  | [], s => (none, [], s)
  | e :: rest, s =>
    let s1 := s.append (R e.node e.phase)
    let s2 := if commitsAt e.node e.phase then s1.commit else s1
    (some e.ref, rest, s2)

/-- The errors the orchestrator can raise.  `outOfFuel` is an artifact of
the fuel-based embedding of the source's `while` loop; `renderMatrix`
supplies sufficient fuel, so it never surfaces there. -/
inductive RenderError where
  | structural
  | lockstep
  | sendFailure (e : String)
  | outOfFuel
deriving DecidableEq, Repr

/-- The send callback: given the markdown text and the HTML text of one
page, produce an event id or fail. -/
def SendCB := String → String → Except String String

/-- `checkEqual`: the source's lockstep assertion — `Object.is` on the
two nodes just returned by the walkers (reference identity, modelled as
path identity over the shared tree), raising a `TypeError` on mismatch. -/
def checkEqual (node1 node2 : Option NodeRef) : Except RenderError Unit :=
  if node1 = node2 then .ok () else .error .lockstep

instance {ε α : Type} [DecidableEq ε] [DecidableEq α] : DecidableEq (Except ε α) := fun x y =>
  match x, y with
  | .ok a, .ok b =>
    if h : a = b then .isTrue (by rw [h]) else .isFalse (by intro hc; cases hc; exact h rfl)
  | .ok _, .error _ => .isFalse (by intro hc; cases hc)
  | .error _, .ok _ => .isFalse (by intro hc; cases hc)
  | .error e, .error f =>
    if h : e = f then .isTrue (by rw [h]) else .isFalse (by intro hc; cases hc; exact h rfl)

/-- The observable outcome of a `renderMatrix` run: the returned value
(or error), the identifiers collected so far at exit, the send-callback
invocation log (each entry tagged with the number of walker increment
pairs performed before the send, then the markdown and HTML page texts,
in invocation order), and the total number of increment pairs
performed. -/
structure RunResult where
  result : Except RenderError (List String)
  collected : List String
  log : List (Nat × String × String)
  pairs : Nat
deriving DecidableEq, Repr

/-- The `while` loop of `renderMatrix`, generic in the two walkers (the
source drives them only through `increment`).  Each iteration: if either
stream reports a ready page, force both streams to a new page, read both
pages, and send them (a callback failure aborts); then step both walkers
one increment and assert lockstep with `checkEqual`.  The loop runs
while the current node is not the terminal marker; afterwards both
streams are force-flushed and a final synchronized send is performed if
either still holds content.  The source performs the increment pair once
at the end of the loop body; the recursion here inlines that tail in
both branches of the page check (see `stepPair` and
`renderLoop_succ_some` for the factored form). -/
def renderLoop {σa σb : Type} (cb : SendCB)
    (incA : σa → PDS → Option NodeRef × σa × PDS)
    (incB : σb → PDS → Option NodeRef × σb × PDS) :
    Nat → σa → σb → PDS → PDS → Option NodeRef →
    List String → List (Nat × String × String) → Nat → RunResult
  | 0, _, _, _, _, _, acc, log, pairs =>
    { result := .error .outOfFuel, collected := acc, log := log, pairs := pairs }
  | fuel + 1, wA, wB, sMd, sHtml, cur, acc, log, pairs =>
    match cur with
    | none =>
      -- after the loop: outputs.forEach(o => o.ensureNewPage())
      let sHtml1 := sHtml.ensureNewPage
      let sMd1 := sMd.ensureNewPage
      if sHtml1.peekPage || sMd1.peekPage then
        let rMd := sMd1.readPageBang
        let rHtml := sHtml1.readPageBang
        match cb rMd.1 rHtml.1 with
        | .error e =>
          { result := .error (.sendFailure e), collected := acc
            log := log ++ [(pairs, rMd.1, rHtml.1)], pairs := pairs }
        | .ok id =>
          { result := .ok (acc ++ [id]), collected := acc ++ [id]
            log := log ++ [(pairs, rMd.1, rHtml.1)], pairs := pairs }
      else { result := .ok acc, collected := acc, log := log, pairs := pairs }
    | some _ =>
      if sHtml.peekPage || sMd.peekPage then
        -- ensure each stream has the same nodes in the new page, then send
        let sHtml1 := sHtml.ensureNewPage
        let sMd1 := sMd.ensureNewPage
        let rMd := sMd1.readPageBang
        let rHtml := sHtml1.readPageBang
        match cb rMd.1 rHtml.1 with
        | .error e =>
          { result := .error (.sendFailure e), collected := acc
            log := log ++ [(pairs, rMd.1, rHtml.1)], pairs := pairs }
        | .ok id =>
          let aRes := incA wA rMd.2
          let bRes := incB wB rHtml.2
          match checkEqual bRes.1 aRes.1 with
          | .error e2 =>
            { result := .error e2, collected := acc ++ [id]
              log := log ++ [(pairs, rMd.1, rHtml.1)], pairs := pairs + 1 }
          | .ok _ =>
            renderLoop cb incA incB fuel aRes.2.1 bRes.2.1 aRes.2.2 bRes.2.2 bRes.1
              (acc ++ [id]) (log ++ [(pairs, rMd.1, rHtml.1)]) (pairs + 1)
      else
        let aRes := incA wA sMd
        let bRes := incB wB sHtml
        match checkEqual bRes.1 aRes.1 with
        | .error e =>
          { result := .error e, collected := acc, log := log, pairs := pairs + 1 }
        | .ok _ =>
          renderLoop cb incA incB fuel aRes.2.1 bRes.2.1 aRes.2.2 bRes.2.2 bRes.1
            acc log (pairs + 1)

/-- One lockstep pair of walker increments followed by the `checkEqual`
assertion (the source performs this once before the loop and at the end
of every loop body); on success the loop continues with the node the
HTML walker returned. -/
def stepPair {σa σb : Type} (cb : SendCB)
    (incA : σa → PDS → Option NodeRef × σa × PDS)
    (incB : σb → PDS → Option NodeRef × σb × PDS)
    (fuel : Nat) (wA : σa) (wB : σb) (sMd sHtml : PDS)
    (acc : List String) (log : List (Nat × String × String)) (pairs : Nat) : RunResult :=
  let aRes := incA wA sMd
  let bRes := incB wB sHtml
  match checkEqual bRes.1 aRes.1 with
  | .error e => { result := .error e, collected := acc, log := log, pairs := pairs + 1 }
  | .ok _ =>
    renderLoop cb incA incB fuel aRes.2.1 bRes.2.1 aRes.2.2 bRes.2.2 bRes.1 acc log (pairs + 1)

/-- The body of `renderMatrix` after the structural precondition check:
construct the two streams with the given size limit, perform the
initial increment pair with its lockstep assertion, then run the loop. -/
def renderMatrixCore {σa σb : Type} (cb : SendCB)
    (incA : σa → PDS → Option NodeRef × σa × PDS)
    (incB : σb → PDS → Option NodeRef × σb × PDS)
    (initA : σa) (initB : σb) (limit : Nat) (fuel : Nat) : RunResult :=
  stepPair cb incA incB fuel initA initB (PDS.new limit) (PDS.new limit) [] [] 0

/-- Modelled from the spec: HTML escaping of one character for the rich
renderer (spec section 4.2: markup-significant characters in literal
text are rendered literally). -/
def escChar (c : Char) : String :=
  if c = '&' then "&amp;"
  else if c = '<' then "&lt;"
  else if c = '>' then "&gt;"
  else String.singleton c

/-- HTML escaping of a string. -/
def escapeHtml (s : String) : String :=
  String.join (s.data.map escChar)

/-- Modelled from the spec: the plain/markdown-like renderer (spec
section 4.2); the source file `DeadDocumentMarkdown.ts` is not among the
given sources.  Text leaves emit their raw payload on entry; markup
such as `**` surrounds Bold on entry and exit. -/
def MARKDOWN_RENDERER : Renderer := fun n ph =>
  match n, ph with
  | .leaf .TextNode s, .enter => s
  | .node .Bold _, _ => "**"
  | .node .Italic _, _ => "*"
  | .node .Code _, _ => "`"
  | .node .Paragraph _, .exit => "\n\n"
  | .node .Heading _, .enter => "# "
  | .node .Heading _, .exit => "\n\n"
  | .node .ListItem _, .enter => " - "
  | .node .ListItem _, .exit => "\n"
  | .node .LineBreak _, .enter => "\n"
  | _, _ => ""

/-- Modelled from the spec: the rich/HTML-like renderer (spec section
4.2); the source file `DeadDocumentHtml.ts` is not among the given
sources.  Tag-delimited markup on entry/exit, with text payloads
escaped. -/
def HTML_RENDERER : Renderer := fun n ph =>
  match n, ph with
  | .leaf .TextNode s, .enter => escapeHtml s
  | .node .Bold _, .enter => "<b>"
  | .node .Bold _, .exit => "</b>"
  | .node .Italic _, .enter => "<i>"
  | .node .Italic _, .exit => "</i>"
  | .node .Code _, .enter => "<code>"
  | .node .Code _, .exit => "</code>"
  | .node .Paragraph _, .enter => "<p>"
  | .node .Paragraph _, .exit => "</p>"
  | .node .Heading _, .enter => "<h1>"
  | .node .Heading _, .exit => "</h1>"
  | .node .List _, .enter => "<ul>"
  | .node .List _, .exit => "</ul>"
  | .node .ListItem _, .enter => "<li>"
  | .node .ListItem _, .exit => "</li>"
  | .node .LineBreak _, .enter => "<br/>"
  | _, _ => ""

/-- Modelled from the spec: the maximum page size the
`PagedDuplexStream` constructor defaults to when, as in the source
`renderMatrix`, it is invoked with no argument.  The stream class is not
among the given sources and the spec mandates no particular default
("collaborators choose a value"); the modelled value is kept small so
that runs are directly computable, and no claim depends on the
particular number. -/
def DEFAULT_PAGE_SIZE : Nat := 20

/-- `renderMatrix`, embedded from the source: check the structural
precondition (root tag must be `Root`), construct the two paged streams
with the stream's default size limit, drive the markdown and HTML
walkers in lockstep, and send each forced page pair through the
callback. -/
def renderMatrix (tree : DNode) (cb : SendCB) : RunResult :=
  if tree.tag ≠ NodeTag.Root then
    { result := .error .structural, collected := [], log := [], pairs := 0 }
  else
    renderMatrixCore cb (incrementW MARKDOWN_RENDERER) (incrementW HTML_RENDERER)
      (fringe tree []) (fringe tree []) DEFAULT_PAGE_SIZE ((fringe tree []).length + 1)

/-- Modelled from the spec: the Render Orchestrator as the spec's
external-interface section describes it — "given a Document Tree …, a
maximum page size, and a send callback", the caller-chosen limit being
passed to the two paged streams it constructs.  This definition exists
to be compared with the source-faithful `renderMatrix` above, which
accepts no such input. -/
def renderMatrixWithLimit (limit : Nat) (tree : DNode) (cb : SendCB) : RunResult :=
  if tree.tag ≠ NodeTag.Root then
    { result := .error .structural, collected := [], log := [], pairs := 0 }
  else
    renderMatrixCore cb (incrementW MARKDOWN_RENDERER) (incrementW HTML_RENDERER)
      (fringe tree []) (fringe tree []) limit ((fringe tree []).length + 1)

/-- A send callback that always succeeds; used to define the canonical
page schedule of a run. -/
def sendOk : SendCB := fun _ _ => .ok ""

/-- The markdown texts of an invocation log, concatenated in send order. -/
def mdConcat (log : List (Nat × String × String)) : String :=
  String.join (log.map fun e => e.2.1)

/-- The HTML texts of an invocation log, concatenated in send order. -/
def htmlConcat (log : List (Nat × String × String)) : String :=
  String.join (log.map fun e => e.2.2)

/-- The outcome of folding a send callback over a page schedule: the ids
of the successful prefix, the first failure (if any), the invocations
actually made, and the pair tag of the failing entry. -/
structure SendSim where
  ids : List String
  err : Option String
  inv : List (Nat × String × String)
  failTag : Option Nat
deriving DecidableEq, Repr

/-- Fold a send callback over a page schedule, stopping at the first
failure. -/
def sendOutcome (cb : SendCB) : List (Nat × String × String) → SendSim
  | [] => ⟨[], none, [], none⟩
  | (k, t, h) :: rest =>
    match cb t h with
    | .error e => ⟨[], some e, [(k, t, h)], some k⟩
    | .ok id =>
      let s := sendOutcome cb rest
      ⟨id :: s.ids, s.err, (k, t, h) :: s.inv, s.failTag⟩

/-- Shift a loop outcome by prepending previously accumulated ids and
log entries (the loop threads its accumulators; this expresses a run
relative to empty accumulators). -/
def shiftRes (acc : List String) (log : List (Nat × String × String))
    (z : RunResult) : RunResult :=
  { result := match z.result with | .ok ids => .ok (acc ++ ids) | .error e => .error e
    collected := acc ++ z.collected
    log := log ++ z.log
    pairs := z.pairs }

/-- Combine a reference run (made with the always-succeeding callback)
with the outcome of folding a real callback over its page schedule: the
predicted outcome of the run with the real callback. -/
def simCombine (acc : List String) (log : List (Nat × String × String))
    (s : SendSim) (ref : RunResult) : RunResult :=
  match s.err with
  | some e =>
    { result := .error (.sendFailure e), collected := acc ++ s.ids
      log := log ++ s.inv, pairs := s.failTag.getD 0 }
  | none =>
    { result := match ref.result with | .ok _ => .ok (acc ++ s.ids) | .error x => .error x
      collected := acc ++ s.ids, log := log ++ s.inv, pairs := ref.pairs }

/-! ## The JSX factory -/

/-- A raw JSX child value as the source `JSXFactory` classifies it:
a string, a number (modelled as an integer; the claims only concern its
decimal string rendering), an already-built document node (any value
whose `leafNode` member is a boolean), an array of raw children, or any
other value (e.g. `null` or a boolean), for which only its printed form
matters. -/
inductive RawJSX where
  | str (s : String)
  | num (n : Int)
  | node (d : DNode)
  | arr (xs : List RawJSX)
  | other (printed : String)

mutual
/-- `ensureChild` from the source `JSXFactory`: classify one raw child
and attach the resulting nodes to the parent.  The source mutates the
freshly created parent node (`makeLeafNode`/`addChild`, modelled from
the spec's data model since `DeadDocument.ts` is not among the given
sources, attach the child to the parent's ordered child list); the
mutation is modelled by threading the accumulated child list. -/
def ensureChild (acc : List DNode) : RawJSX → Except String (List DNode)
  | .str s => .ok (acc ++ [DNode.leaf NodeTag.TextNode s])
  | .num n => .ok (acc ++ [DNode.leaf NodeTag.TextNode n.repr])
  | .arr xs => ensureChildList acc xs
  | .node d => .ok (acc ++ [d])
  | .other printed => .error ("Unexpected raw child " ++ printed)

/-- `rawChildren.forEach(ensureChild)` from the source. -/
def ensureChildList (acc : List DNode) : List RawJSX → Except String (List DNode)
  | [] => .ok acc
  | x :: rest =>
    match ensureChild acc x with
    | .error e => .error e
    | .ok acc2 => ensureChildList acc2 rest
end

/-- `JSXFactory` from the source: make a document node with the given
tag and attach every raw child in order.  The `properties` argument is
accepted and, as in the source, never used. -/
def JSXFactory (tag : NodeTag) (_properties : Option String)
    (rawChildren : List RawJSX) : Except String DNode :=
  match ensureChildList [] rawChildren with
  | .error e => .error e
  | .ok children => .ok (DNode.node tag children)

mutual
/-- The claim's description of one flattened raw child: a string becomes
a text leaf carrying exactly that string, a number a text leaf carrying
its decimal representation, an array is flattened recursively in order,
an existing node is kept as-is, and anything else is a `TypeError`. -/
def flattenRawChild : RawJSX → Except String (List DNode)
  | .str s => .ok [DNode.leaf NodeTag.TextNode s]
  | .num n => .ok [DNode.leaf NodeTag.TextNode n.repr]
  | .arr xs => flattenRawList xs
  | .node d => .ok [d]
  | .other printed => .error ("Unexpected raw child " ++ printed)

/-- The claim's description of the flattened children of a list of raw
children, in order, the first error aborting. -/
def flattenRawList : List RawJSX → Except String (List DNode)
  | [] => .ok []
  | x :: rest =>
    match flattenRawChild x with
    | .error e => .error e
    | .ok l =>
      match flattenRawList rest with
      | .error e => .error e
      | .ok l2 => .ok (l ++ l2)
end

/-! ## Basic lemmas: strings and the paged stream -/

theorem join_cons (c : String) (l : List String) :
    String.join (c :: l) = c ++ String.join l := by
  apply String.ext; simp

theorem join_append (l1 l2 : List String) :
    String.join (l1 ++ l2) = String.join l1 ++ String.join l2 := by
  apply String.ext; simp

theorem append_eq_empty {s t : String} (h : s ++ t = "") : s = "" ∧ t = "" := by
  have hd := congrArg String.data h
  simp at hd
  exact ⟨String.ext hd.1, String.ext hd.2⟩

namespace PDS

theorem wfP_new (limit : Nat) : (new limit).wfP := by
  intro c hc; simp [new] at hc

@[simp] theorem content_new (limit : Nat) : (new limit).content = "" := rfl

@[simp] theorem sizeLimit_append (s : PDS) (t : String) :
    (s.append t).sizeLimit = s.sizeLimit := rfl

@[simp] theorem forced_append (s : PDS) (t : String) :
    (s.append t).forced = s.forced := rfl

@[simp] theorem committed_append (s : PDS) (t : String) :
    (s.append t).committed = s.committed := rfl

theorem wfP_append {s : PDS} (t : String) (h : s.wfP) : (s.append t).wfP := h

theorem content_append (s : PDS) (t : String) :
    (s.append t).content = s.content ++ t := by
  simp [append, content, String.append_assoc]

@[simp] theorem sizeLimit_commit (s : PDS) : s.commit.sizeLimit = s.sizeLimit := by
  unfold commit; split <;> rfl

@[simp] theorem forced_commit (s : PDS) : s.commit.forced = s.forced := by
  unfold commit; split <;> rfl

theorem wfP_commit {s : PDS} (h : s.wfP) : s.commit.wfP := by
  unfold commit; split
  · exact h
  · rename_i hp
    intro c hc
    simp only [List.mem_append, List.mem_singleton] at hc
    rcases hc with hc | hc
    · exact h c hc
    · subst hc; exact hp

@[simp] theorem join_nil : String.join [] = "" := rfl

theorem content_commit (s : PDS) : s.commit.content = s.content := by
  unfold commit; split
  · rfl
  · simp [content, join_append, join_cons]

@[simp] theorem sizeLimit_ensure (s : PDS) : s.ensureNewPage.sizeLimit = s.sizeLimit := by
  unfold ensureNewPage; split <;> rfl

theorem committedLength_le_content_length (s : PDS) :
    s.committedLength ≤ s.content.length := by
  simp [committedLength, content, String.length_append]

theorem peek_false (s : PDS) (hf : s.forced = false)
    (hlen : s.committedLength < s.sizeLimit) : s.peekPage = false := by
  simp [peekPage, hf]
  omega

theorem committed_eq_nil_of_content_empty {s : PDS} (hwf : s.wfP)
    (h : s.content = "") : s.committed = [] ∧ s.pending = "" := by
  have h2 := append_eq_empty h
  refine ⟨?_, h2.2⟩
  rcases hc : s.committed with _ | ⟨c, rest⟩
  · rfl
  · exfalso
    have hj : String.join (c :: rest) = "" := hc ▸ h2.1
    rw [join_cons] at hj
    exact hwf c (by simp [hc]) (append_eq_empty hj).1

theorem ensure_eq_self (s : PDS) (h : s.content = "") : s.ensureNewPage = s := by
  unfold ensureNewPage
  simp [h]

theorem ensure_content (s : PDS) : s.ensureNewPage.content = s.content := by
  unfold ensureNewPage
  split
  · rfl
  · by_cases hp : s.pending = ""
    · simp [content, hp, join_append]
    · simp [content, hp, join_append, join_cons]

theorem ensure_peek_true (s : PDS) (h : ¬ s.content = "") : (s.ensureNewPage).peekPage = true := by
  unfold ensureNewPage
  rw [if_neg h]
  simp [peekPage]

theorem readPage_new (limit : Nat) : (PDS.new limit).readPage = none := by
  unfold readPage
  split <;> rfl

theorem readBang_new (limit : Nat) : (PDS.new limit).readPageBang = ("", PDS.new limit) := by
  rw [readPageBang, readPage_new]

theorem readBang_forced (lim : Nat) (c : String) (rest : List String) :
    (PDS.mk lim (c :: rest) "" true).readPageBang
      = (String.join (c :: rest), PDS.new lim) := by
  rw [readPageBang, readPage]
  simp [peekPage, new]

/-- The central send-time fact: force-flushing a (well-formed, unforced)
stream and then reading with the source's non-null assertion yields
exactly the stream's whole content and leaves a fresh empty stream with
the same size limit. -/
theorem ensure_readBang (s : PDS) (hf : s.forced = false) (hwf : s.wfP) :
    (s.ensureNewPage).readPageBang = (s.content, PDS.new s.sizeLimit) := by
  by_cases h : s.content = ""
  · -- no content: ensure is the identity and no page can be read
    obtain ⟨hcom, hpen⟩ := committed_eq_nil_of_content_empty hwf h
    have hs : s = PDS.new s.sizeLimit := by
      rcases s with ⟨lim, com, pen, fo⟩
      simp_all [new]
    rw [ensure_eq_self s h, hs, readBang_new]
    rfl
  · -- content present: ensure forces it, the read returns all of it
    have hjoin : String.join (s.committed ++ if s.pending = "" then [] else [s.pending])
        = s.content := by
      by_cases hp : s.pending = ""
      · simp [content, hp, join_append]
      · simp [content, hp, join_append, join_cons]
    have hcom : (s.committed ++ if s.pending = "" then [] else [s.pending]) ≠ [] := by
      intro hnil
      rw [hnil] at hjoin
      exact h (by simpa using hjoin.symm)
    unfold ensureNewPage
    rw [if_neg h]
    rcases hc : (s.committed ++ if s.pending = "" then [] else [s.pending]) with _ | ⟨c, rest⟩
    · exact absurd hc hcom
    · rw [hc] at hjoin
      rw [readBang_forced, hjoin]

theorem ensure_readBang_fst (s : PDS) (hf : s.forced = false) (hwf : s.wfP) :
    ((s.ensureNewPage).readPageBang).1 = s.content := by
  rw [ensure_readBang s hf hwf]

theorem ensure_readBang_snd (s : PDS) (hf : s.forced = false) (hwf : s.wfP) :
    ((s.ensureNewPage).readPageBang).2 = PDS.new s.sizeLimit := by
  rw [ensure_readBang s hf hwf]

end PDS

/-! ## Unfolding lemmas for the orchestrator loop -/

theorem renderLoop_zero {σa σb : Type} (cb : SendCB)
    (incA : σa → PDS → Option NodeRef × σa × PDS)
    (incB : σb → PDS → Option NodeRef × σb × PDS)
    (wA : σa) (wB : σb) (sMd sHtml : PDS) (cur : Option NodeRef)
    (acc : List String) (log : List (Nat × String × String)) (pairs : Nat) :
    renderLoop cb incA incB 0 wA wB sMd sHtml cur acc log pairs
      = { result := .error .outOfFuel, collected := acc, log := log, pairs := pairs } := by
  rw [renderLoop]

theorem renderLoop_succ_none {σa σb : Type} (cb : SendCB)
    (incA : σa → PDS → Option NodeRef × σa × PDS)
    (incB : σb → PDS → Option NodeRef × σb × PDS)
    (fuel : Nat) (wA : σa) (wB : σb) (sMd sHtml : PDS)
    (acc : List String) (log : List (Nat × String × String)) (pairs : Nat) :
    renderLoop cb incA incB (fuel + 1) wA wB sMd sHtml none acc log pairs =
      (if (sHtml.ensureNewPage).peekPage || (sMd.ensureNewPage).peekPage then
        match cb ((sMd.ensureNewPage).readPageBang).1 ((sHtml.ensureNewPage).readPageBang).1 with
        | .error e =>
          { result := .error (.sendFailure e), collected := acc
            log := log ++ [(pairs, ((sMd.ensureNewPage).readPageBang).1,
              ((sHtml.ensureNewPage).readPageBang).1)], pairs := pairs }
        | .ok id =>
          { result := .ok (acc ++ [id]), collected := acc ++ [id]
            log := log ++ [(pairs, ((sMd.ensureNewPage).readPageBang).1,
              ((sHtml.ensureNewPage).readPageBang).1)], pairs := pairs }
      else { result := .ok acc, collected := acc, log := log, pairs := pairs }) := by
  rw [renderLoop]

theorem renderLoop_succ_some {σa σb : Type} (cb : SendCB)
    (incA : σa → PDS → Option NodeRef × σa × PDS)
    (incB : σb → PDS → Option NodeRef × σb × PDS)
    (fuel : Nat) (wA : σa) (wB : σb) (sMd sHtml : PDS) (p : NodeRef)
    (acc : List String) (log : List (Nat × String × String)) (pairs : Nat) :
    renderLoop cb incA incB (fuel + 1) wA wB sMd sHtml (some p) acc log pairs =
      (if sHtml.peekPage || sMd.peekPage then
        match cb ((sMd.ensureNewPage).readPageBang).1 ((sHtml.ensureNewPage).readPageBang).1 with
        | .error e =>
          { result := .error (.sendFailure e), collected := acc
            log := log ++ [(pairs, ((sMd.ensureNewPage).readPageBang).1,
              ((sHtml.ensureNewPage).readPageBang).1)], pairs := pairs }
        | .ok id =>
          stepPair cb incA incB fuel wA wB ((sMd.ensureNewPage).readPageBang).2
            ((sHtml.ensureNewPage).readPageBang).2 (acc ++ [id])
            (log ++ [(pairs, ((sMd.ensureNewPage).readPageBang).1,
              ((sHtml.ensureNewPage).readPageBang).1)]) pairs
      else stepPair cb incA incB fuel wA wB sMd sHtml acc log pairs) := by
  rw [renderLoop]
  rfl

theorem stepPair_eq {σa σb : Type} (cb : SendCB)
    (incA : σa → PDS → Option NodeRef × σa × PDS)
    (incB : σb → PDS → Option NodeRef × σb × PDS)
    (fuel : Nat) (wA : σa) (wB : σb) (sMd sHtml : PDS)
    (acc : List String) (log : List (Nat × String × String)) (pairs : Nat) :
    stepPair cb incA incB fuel wA wB sMd sHtml acc log pairs =
      match checkEqual (incB wB sHtml).1 (incA wA sMd).1 with
      | .error e => { result := .error e, collected := acc, log := log, pairs := pairs + 1 }
      | .ok _ =>
        renderLoop cb incA incB fuel (incA wA sMd).2.1 (incB wB sHtml).2.1
          (incA wA sMd).2.2 (incB wB sHtml).2.2 (incB wB sHtml).1 acc log (pairs + 1) := by
  rw [stepPair]

theorem checkEqual_of_eq {a b : Option NodeRef} (h : a = b) : checkEqual a b = .ok () := by
  simp [checkEqual, h]

theorem checkEqual_of_ne {a b : Option NodeRef} (h : a ≠ b) :
    checkEqual a b = .error .lockstep := by
  simp [checkEqual, h]

theorem checkEqual_err {a b : Option NodeRef} {e : RenderError}
    (h : checkEqual a b = .error e) : e = .lockstep ∧ a ≠ b := by
  unfold checkEqual at h
  split at h
  · cases h
  · rename_i hne
    cases h
    exact ⟨rfl, hne⟩

/-! ## The loop never raises the structural error -/

theorem no_structural (fuel : Nat) :
    (∀ {σa σb : Type} (cb : SendCB)
      (incA : σa → PDS → Option NodeRef × σa × PDS)
      (incB : σb → PDS → Option NodeRef × σb × PDS)
      (wA : σa) (wB : σb) (sMd sHtml : PDS) (cur : Option NodeRef)
      (acc : List String) (log : List (Nat × String × String)) (pairs : Nat),
      (renderLoop cb incA incB fuel wA wB sMd sHtml cur acc log pairs).result
        ≠ .error .structural) ∧
    (∀ {σa σb : Type} (cb : SendCB)
      (incA : σa → PDS → Option NodeRef × σa × PDS)
      (incB : σb → PDS → Option NodeRef × σb × PDS)
      (wA : σa) (wB : σb) (sMd sHtml : PDS)
      (acc : List String) (log : List (Nat × String × String)) (pairs : Nat),
      (stepPair cb incA incB fuel wA wB sMd sHtml acc log pairs).result
        ≠ .error .structural) := by
  induction fuel with
  | zero =>
    constructor
    · intro σa σb cb incA incB wA wB sMd sHtml cur acc log pairs
      rw [renderLoop_zero]
      simp
    · intro σa σb cb incA incB wA wB sMd sHtml acc log pairs
      rw [stepPair_eq]
      rcases hce : checkEqual (incB wB sHtml).1 (incA wA sMd).1 with e | u
      · simp only []
        have := (checkEqual_err hce).1
        subst this
        simp
      · rw [renderLoop_zero]
        simp
  | succ n ih =>
    have hloop : ∀ {σa σb : Type} (cb : SendCB)
        (incA : σa → PDS → Option NodeRef × σa × PDS)
        (incB : σb → PDS → Option NodeRef × σb × PDS)
        (wA : σa) (wB : σb) (sMd sHtml : PDS) (cur : Option NodeRef)
        (acc : List String) (log : List (Nat × String × String)) (pairs : Nat),
        (renderLoop cb incA incB (n + 1) wA wB sMd sHtml cur acc log pairs).result
          ≠ .error .structural := by
      intro σa σb cb incA incB wA wB sMd sHtml cur acc log pairs
      cases cur with
      | none =>
        rw [renderLoop_succ_none]
        split
        · rcases hcb : cb ((sMd.ensureNewPage).readPageBang).1
            ((sHtml.ensureNewPage).readPageBang).1 with e | id <;> simp
        · simp
      | some p =>
        rw [renderLoop_succ_some]
        split
        · rcases hcb : cb ((sMd.ensureNewPage).readPageBang).1
            ((sHtml.ensureNewPage).readPageBang).1 with e | id
          · simp
          · simp only []
            exact ih.2 cb incA incB wA wB _ _ _ _ pairs
        · exact ih.2 cb incA incB wA wB _ _ _ _ pairs
    refine ⟨hloop, ?_⟩
    intro σa σb cb incA incB wA wB sMd sHtml acc log pairs
    rw [stepPair_eq]
    rcases hce : checkEqual (incB wB sHtml).1 (incA wA sMd).1 with e | u
    · simp only []
      have := (checkEqual_err hce).1
      subst this
      simp
    · exact hloop cb incA incB _ _ _ _ _ acc log (pairs + 1)

/-! ## Accumulator shift: a run relative to empty accumulators -/

theorem shiftRes_comp (a1 l1 a2 l2) (z : RunResult) :
    shiftRes a1 l1 (shiftRes a2 l2 z) = shiftRes (a1 ++ a2) (l1 ++ l2) z := by
  unfold shiftRes
  rcases z with ⟨r, c, lg, p⟩
  rcases r with e | ids <;> simp

theorem acc_shift (fuel : Nat) :
    (∀ {σa σb : Type} (cb : SendCB)
      (incA : σa → PDS → Option NodeRef × σa × PDS)
      (incB : σb → PDS → Option NodeRef × σb × PDS)
      (wA : σa) (wB : σb) (sMd sHtml : PDS) (cur : Option NodeRef)
      (acc : List String) (log : List (Nat × String × String)) (pairs : Nat),
      renderLoop cb incA incB fuel wA wB sMd sHtml cur acc log pairs
        = shiftRes acc log (renderLoop cb incA incB fuel wA wB sMd sHtml cur [] [] pairs)) ∧
    (∀ {σa σb : Type} (cb : SendCB)
      (incA : σa → PDS → Option NodeRef × σa × PDS)
      (incB : σb → PDS → Option NodeRef × σb × PDS)
      (wA : σa) (wB : σb) (sMd sHtml : PDS)
      (acc : List String) (log : List (Nat × String × String)) (pairs : Nat),
      stepPair cb incA incB fuel wA wB sMd sHtml acc log pairs
        = shiftRes acc log (stepPair cb incA incB fuel wA wB sMd sHtml [] [] pairs)) := by
  induction fuel with
  | zero =>
    constructor
    · intro σa σb cb incA incB wA wB sMd sHtml cur acc log pairs
      rw [renderLoop_zero, renderLoop_zero]
      simp [shiftRes]
    · intro σa σb cb incA incB wA wB sMd sHtml acc log pairs
      rw [stepPair_eq, stepPair_eq]
      rcases hce : checkEqual (incB wB sHtml).1 (incA wA sMd).1 with e | u
      · simp [shiftRes]
      · rw [renderLoop_zero, renderLoop_zero]
        simp [shiftRes]
  | succ n ih =>
    have hloop : ∀ {σa σb : Type} (cb : SendCB)
        (incA : σa → PDS → Option NodeRef × σa × PDS)
        (incB : σb → PDS → Option NodeRef × σb × PDS)
        (wA : σa) (wB : σb) (sMd sHtml : PDS) (cur : Option NodeRef)
        (acc : List String) (log : List (Nat × String × String)) (pairs : Nat),
        renderLoop cb incA incB (n + 1) wA wB sMd sHtml cur acc log pairs
          = shiftRes acc log (renderLoop cb incA incB (n + 1) wA wB sMd sHtml cur [] [] pairs) := by
      intro σa σb cb incA incB wA wB sMd sHtml cur acc log pairs
      cases cur with
      | none =>
        rw [renderLoop_succ_none, renderLoop_succ_none]
        split
        · rcases hcb : cb ((sMd.ensureNewPage).readPageBang).1
            ((sHtml.ensureNewPage).readPageBang).1 with e | id <;> simp [shiftRes]
        · simp [shiftRes]
      | some p =>
        rw [renderLoop_succ_some, renderLoop_succ_some]
        split
        · rcases hcb : cb ((sMd.ensureNewPage).readPageBang).1
            ((sHtml.ensureNewPage).readPageBang).1 with e | id
          · simp [shiftRes]
          · simp only [List.nil_append]
            rw [ih.2 cb incA incB wA wB ((sMd.ensureNewPage).readPageBang).2
                ((sHtml.ensureNewPage).readPageBang).2 (acc ++ [id])
                (log ++ [(pairs, ((sMd.ensureNewPage).readPageBang).1,
                  ((sHtml.ensureNewPage).readPageBang).1)]) pairs,
              ih.2 cb incA incB wA wB ((sMd.ensureNewPage).readPageBang).2
                ((sHtml.ensureNewPage).readPageBang).2 [id]
                [(pairs, ((sMd.ensureNewPage).readPageBang).1,
                  ((sHtml.ensureNewPage).readPageBang).1)] pairs,
              shiftRes_comp]
        · exact ih.2 cb incA incB wA wB sMd sHtml acc log pairs
    refine ⟨hloop, ?_⟩
    intro σa σb cb incA incB wA wB sMd sHtml acc log pairs
    rw [stepPair_eq, stepPair_eq]
    rcases hce : checkEqual (incB wB sHtml).1 (incA wA sMd).1 with e | u
    · simp [shiftRes]
    · exact hloop cb incA incB _ _ _ _ _ acc log (pairs + 1)

/-! ## Simulation: a run with any callback against the reference run -/

theorem simCombine_cons (acc : List String) (log : List (Nat × String × String))
    (k : Nat) (t h id : String) (s0 : SendSim) (z0 : RunResult) :
    simCombine (acc ++ [id]) (log ++ [(k, t, h)]) s0 z0
      = simCombine acc log ⟨id :: s0.ids, s0.err, (k, t, h) :: s0.inv, s0.failTag⟩
          (shiftRes [""] [(k, t, h)] z0) := by
  unfold simCombine shiftRes
  rcases s0 with ⟨ids, err, inv, ftag⟩
  rcases err with _ | e
  · rcases z0 with ⟨r, c, lg, p⟩
    rcases r with x | ids2 <;> simp
  · simp

theorem sim (fuel : Nat) :
    (∀ {σa σb : Type} (cb : SendCB)
      (incA : σa → PDS → Option NodeRef × σa × PDS)
      (incB : σb → PDS → Option NodeRef × σb × PDS)
      (wA : σa) (wB : σb) (sMd sHtml : PDS) (cur : Option NodeRef)
      (acc : List String) (log : List (Nat × String × String)) (pairs : Nat),
      renderLoop cb incA incB fuel wA wB sMd sHtml cur acc log pairs
        = simCombine acc log
            (sendOutcome cb (renderLoop sendOk incA incB fuel wA wB sMd sHtml cur [] [] pairs).log)
            (renderLoop sendOk incA incB fuel wA wB sMd sHtml cur [] [] pairs)) ∧
    (∀ {σa σb : Type} (cb : SendCB)
      (incA : σa → PDS → Option NodeRef × σa × PDS)
      (incB : σb → PDS → Option NodeRef × σb × PDS)
      (wA : σa) (wB : σb) (sMd sHtml : PDS)
      (acc : List String) (log : List (Nat × String × String)) (pairs : Nat),
      stepPair cb incA incB fuel wA wB sMd sHtml acc log pairs
        = simCombine acc log
            (sendOutcome cb (stepPair sendOk incA incB fuel wA wB sMd sHtml [] [] pairs).log)
            (stepPair sendOk incA incB fuel wA wB sMd sHtml [] [] pairs)) := by
  induction fuel with
  | zero =>
    have hr0 : ∀ {σa σb : Type} (cb : SendCB)
        (incA : σa → PDS → Option NodeRef × σa × PDS)
        (incB : σb → PDS → Option NodeRef × σb × PDS)
        (wA : σa) (wB : σb) (sMd sHtml : PDS) (cur : Option NodeRef)
        (acc : List String) (log : List (Nat × String × String)) (pairs : Nat),
        renderLoop cb incA incB 0 wA wB sMd sHtml cur acc log pairs
          = simCombine acc log
              (sendOutcome cb (renderLoop sendOk incA incB 0 wA wB sMd sHtml cur [] [] pairs).log)
              (renderLoop sendOk incA incB 0 wA wB sMd sHtml cur [] [] pairs) := by
      intro σa σb cb incA incB wA wB sMd sHtml cur acc log pairs
      rw [renderLoop_zero, renderLoop_zero]
      simp [sendOutcome, simCombine]
    refine ⟨hr0, ?_⟩
    intro σa σb cb incA incB wA wB sMd sHtml acc log pairs
    rw [stepPair_eq, stepPair_eq]
    rcases hce : checkEqual (incB wB sHtml).1 (incA wA sMd).1 with e | u
    · simp [sendOutcome, simCombine]
    · exact hr0 cb incA incB _ _ _ _ _ acc log (pairs + 1)
  | succ n ih =>
    have hloop : ∀ {σa σb : Type} (cb : SendCB)
        (incA : σa → PDS → Option NodeRef × σa × PDS)
        (incB : σb → PDS → Option NodeRef × σb × PDS)
        (wA : σa) (wB : σb) (sMd sHtml : PDS) (cur : Option NodeRef)
        (acc : List String) (log : List (Nat × String × String)) (pairs : Nat),
        renderLoop cb incA incB (n + 1) wA wB sMd sHtml cur acc log pairs
          = simCombine acc log
              (sendOutcome cb (renderLoop sendOk incA incB (n + 1) wA wB sMd sHtml cur [] [] pairs).log)
              (renderLoop sendOk incA incB (n + 1) wA wB sMd sHtml cur [] [] pairs) := by
      intro σa σb cb incA incB wA wB sMd sHtml cur acc log pairs
      cases cur with
      | none =>
        rw [renderLoop_succ_none, renderLoop_succ_none]
        by_cases hg : (sHtml.ensureNewPage.peekPage || sMd.ensureNewPage.peekPage) = true
        · rw [if_pos hg, if_pos hg]
          rcases hcb : cb ((sMd.ensureNewPage).readPageBang).1
            ((sHtml.ensureNewPage).readPageBang).1 with e | id
          · simp [sendOk, sendOutcome, hcb, simCombine]
          · simp [sendOk, sendOutcome, hcb, simCombine]
        · rw [if_neg hg, if_neg hg]
          simp [sendOutcome, simCombine]
      | some p =>
        rw [renderLoop_succ_some, renderLoop_succ_some]
        by_cases hg : (sHtml.peekPage || sMd.peekPage) = true
        · rw [if_pos hg, if_pos hg]
          rcases hcb : cb ((sMd.ensureNewPage).readPageBang).1
            ((sHtml.ensureNewPage).readPageBang).1 with e | id
          · -- the real callback fails on this page
            simp only [sendOk]
            rw [(acc_shift n).2 sendOk incA incB wA wB ((sMd.ensureNewPage).readPageBang).2
              ((sHtml.ensureNewPage).readPageBang).2 ([] ++ [""])
              ([] ++ [(pairs, ((sMd.ensureNewPage).readPageBang).1,
                ((sHtml.ensureNewPage).readPageBang).1)]) pairs]
            simp [sendOutcome, hcb, simCombine, shiftRes]
          · -- the real callback succeeds on this page
            simp only [sendOk, List.nil_append]
            rw [ih.2 cb incA incB wA wB ((sMd.ensureNewPage).readPageBang).2
                ((sHtml.ensureNewPage).readPageBang).2 (acc ++ [id])
                (log ++ [(pairs, ((sMd.ensureNewPage).readPageBang).1,
                  ((sHtml.ensureNewPage).readPageBang).1)]) pairs,
              (acc_shift n).2 sendOk incA incB wA wB ((sMd.ensureNewPage).readPageBang).2
                ((sHtml.ensureNewPage).readPageBang).2 [""]
                [(pairs, ((sMd.ensureNewPage).readPageBang).1,
                  ((sHtml.ensureNewPage).readPageBang).1)] pairs]
            rw [simCombine_cons]
            have hlog : (shiftRes [""]
                [(pairs, ((sMd.ensureNewPage).readPageBang).1,
                  ((sHtml.ensureNewPage).readPageBang).1)]
                (stepPair sendOk incA incB n wA wB ((sMd.ensureNewPage).readPageBang).2
                  ((sHtml.ensureNewPage).readPageBang).2 [] [] pairs)).log
                = (pairs, ((sMd.ensureNewPage).readPageBang).1,
                    ((sHtml.ensureNewPage).readPageBang).1)
                  :: (stepPair sendOk incA incB n wA wB ((sMd.ensureNewPage).readPageBang).2
                    ((sHtml.ensureNewPage).readPageBang).2 [] [] pairs).log := by
              simp [shiftRes]
            rw [hlog]
            simp [sendOutcome, hcb]
        · rw [if_neg hg, if_neg hg]
          exact ih.2 cb incA incB wA wB sMd sHtml acc log pairs
    refine ⟨hloop, ?_⟩
    intro σa σb cb incA incB wA wB sMd sHtml acc log pairs
    rw [stepPair_eq, stepPair_eq]
    rcases hce : checkEqual (incB wB sHtml).1 (incA wA sMd).1 with e | u
    · simp [sendOutcome, simCombine]
    · exact hloop cb incA incB _ _ _ _ _ acc log (pairs + 1)

/-! ## The concrete walker and content bookkeeping -/

theorem incrementW_nil (R : Renderer) (s : PDS) : incrementW R [] s = (none, [], s) := rfl

theorem incW_fst (R : Renderer) (e : FringeEvent) (rest : List FringeEvent) (s : PDS) :
    (incrementW R (e :: rest) s).1 = some e.ref := rfl

theorem incW_rest (R : Renderer) (e : FringeEvent) (rest : List FringeEvent) (s : PDS) :
    (incrementW R (e :: rest) s).2.1 = rest := rfl

theorem incW_snd (R : Renderer) (e : FringeEvent) (rest : List FringeEvent) (s : PDS) :
    (incrementW R (e :: rest) s).2.2
      = (if commitsAt e.node e.phase then (s.append (R e.node e.phase)).commit
         else s.append (R e.node e.phase)) := rfl

theorem incW_content (R : Renderer) (e : FringeEvent) (rest : List FringeEvent) (s : PDS) :
    ((incrementW R (e :: rest) s).2.2).content = s.content ++ R e.node e.phase := by
  rw [incW_snd]
  split <;> simp [PDS.content_commit, PDS.content_append]

theorem incW_forced (R : Renderer) (e : FringeEvent) (rest : List FringeEvent) (s : PDS) :
    ((incrementW R (e :: rest) s).2.2).forced = s.forced := by
  rw [incW_snd]
  split <;> simp

theorem incW_sizeLimit (R : Renderer) (e : FringeEvent) (rest : List FringeEvent) (s : PDS) :
    ((incrementW R (e :: rest) s).2.2).sizeLimit = s.sizeLimit := by
  rw [incW_snd]
  split <;> simp

theorem incW_wfP (R : Renderer) (e : FringeEvent) (rest : List FringeEvent) {s : PDS}
    (h : s.wfP) : ((incrementW R (e :: rest) s).2.2).wfP := by
  rw [incW_snd]
  split
  · exact PDS.wfP_commit (PDS.wfP_append _ h)
  · exact PDS.wfP_append _ h

theorem emitAll_nil (R : Renderer) : emitAll R [] = "" := rfl

theorem emitAll_cons (R : Renderer) (e : FringeEvent) (rest : List FringeEvent) :
    emitAll R (e :: rest) = R e.node e.phase ++ emitAll R rest := by
  simp [emitAll, join_cons]

theorem mdConcat_append (l1 l2 : List (Nat × String × String)) :
    mdConcat (l1 ++ l2) = mdConcat l1 ++ mdConcat l2 := by
  simp [mdConcat, join_append]

theorem htmlConcat_append (l1 l2 : List (Nat × String × String)) :
    htmlConcat (l1 ++ l2) = htmlConcat l1 ++ htmlConcat l2 := by
  simp [htmlConcat, join_append]

theorem mdConcat_single (k : Nat) (t h : String) : mdConcat [(k, t, h)] = t := by
  simp [mdConcat, join_cons]

theorem htmlConcat_single (k : Nat) (t h : String) : htmlConcat [(k, t, h)] = h := by
  simp [htmlConcat, join_cons]

/-- Content preservation: on a successful run, the concatenation of the
sent page texts from any loop state accounts exactly for the previously
sent text, the text still buffered in the streams, and the text the
remaining fringe events will emit — in both formats. -/
theorem content_invariant (mdR htmlR : Renderer) (fuel : Nat) :
    (∀ (cb : SendCB) (evs : List FringeEvent) (sMd sHtml : PDS) (cur : Option NodeRef)
      (acc : List String) (log : List (Nat × String × String)) (pairs : Nat),
      evs.length + 1 ≤ fuel → (cur = none → evs = []) →
      sMd.forced = false → sHtml.forced = false → sMd.wfP → sHtml.wfP →
      ∀ ids, (renderLoop cb (incrementW mdR) (incrementW htmlR) fuel
          evs evs sMd sHtml cur acc log pairs).result = .ok ids →
        mdConcat (renderLoop cb (incrementW mdR) (incrementW htmlR) fuel
            evs evs sMd sHtml cur acc log pairs).log
          = mdConcat log ++ sMd.content ++ emitAll mdR evs ∧
        htmlConcat (renderLoop cb (incrementW mdR) (incrementW htmlR) fuel
            evs evs sMd sHtml cur acc log pairs).log
          = htmlConcat log ++ sHtml.content ++ emitAll htmlR evs) ∧
    (∀ (cb : SendCB) (evs : List FringeEvent) (sMd sHtml : PDS)
      (acc : List String) (log : List (Nat × String × String)) (pairs : Nat),
      evs.length ≤ fuel →
      sMd.forced = false → sHtml.forced = false → sMd.wfP → sHtml.wfP →
      ∀ ids, (stepPair cb (incrementW mdR) (incrementW htmlR) fuel
          evs evs sMd sHtml acc log pairs).result = .ok ids →
        mdConcat (stepPair cb (incrementW mdR) (incrementW htmlR) fuel
            evs evs sMd sHtml acc log pairs).log
          = mdConcat log ++ sMd.content ++ emitAll mdR evs ∧
        htmlConcat (stepPair cb (incrementW mdR) (incrementW htmlR) fuel
            evs evs sMd sHtml acc log pairs).log
          = htmlConcat log ++ sHtml.content ++ emitAll htmlR evs) := by
  induction fuel with
  | zero =>
    constructor
    · intro cb evs sMd sHtml cur acc log pairs hfuel
      omega
    · intro cb evs sMd sHtml acc log pairs hfuel hfM hfH hwM hwH ids hids
      exfalso
      have h0 : evs = [] := by
        cases evs with
        | nil => rfl
        | cons e rest => simp at hfuel
      subst h0
      rw [stepPair_eq] at hids
      rw [incrementW_nil, incrementW_nil] at hids
      rw [checkEqual_of_eq rfl] at hids
      rw [renderLoop_zero] at hids
      cases hids
  | succ n ih =>
    have hloop : ∀ (cb : SendCB) (evs : List FringeEvent) (sMd sHtml : PDS)
        (cur : Option NodeRef)
        (acc : List String) (log : List (Nat × String × String)) (pairs : Nat),
        evs.length + 1 ≤ n + 1 → (cur = none → evs = []) →
        sMd.forced = false → sHtml.forced = false → sMd.wfP → sHtml.wfP →
        ∀ ids, (renderLoop cb (incrementW mdR) (incrementW htmlR) (n + 1)
            evs evs sMd sHtml cur acc log pairs).result = .ok ids →
          mdConcat (renderLoop cb (incrementW mdR) (incrementW htmlR) (n + 1)
              evs evs sMd sHtml cur acc log pairs).log
            = mdConcat log ++ sMd.content ++ emitAll mdR evs ∧
          htmlConcat (renderLoop cb (incrementW mdR) (incrementW htmlR) (n + 1)
              evs evs sMd sHtml cur acc log pairs).log
            = htmlConcat log ++ sHtml.content ++ emitAll htmlR evs := by
      intro cb evs sMd sHtml cur acc log pairs hfuel hcur hfM hfH hwM hwH ids hids
      cases cur with
      | none =>
        have hevs : evs = [] := hcur rfl
        subst hevs
        rw [renderLoop_succ_none] at hids ⊢
        rw [PDS.ensure_readBang_fst sMd hfM hwM, PDS.ensure_readBang_fst sHtml hfH hwH] at hids ⊢
        by_cases hg : (sHtml.ensureNewPage.peekPage || sMd.ensureNewPage.peekPage) = true
        · rw [if_pos hg] at hids ⊢
          rcases hcb : cb sMd.content sHtml.content with e | id
          · rw [hcb] at hids
            simp at hids
          · rw [hcb] at hids
            dsimp only at hids ⊢
            constructor
            · simp [mdConcat_append, mdConcat_single, emitAll_nil]
            · simp [htmlConcat_append, htmlConcat_single, emitAll_nil]
        · rw [if_neg hg] at hids ⊢
          simp only [Bool.or_eq_true, not_or, Bool.not_eq_true] at hg
          have hcM : sMd.content = "" := by
            by_contra hne
            rw [PDS.ensure_peek_true sMd hne] at hg
            simp at hg
          have hcH : sHtml.content = "" := by
            by_contra hne
            rw [PDS.ensure_peek_true sHtml hne] at hg
            simp at hg
          constructor
          · simp [hcM, emitAll_nil]
          · simp [hcH, emitAll_nil]
      | some p =>
        rw [renderLoop_succ_some] at hids ⊢
        rw [PDS.ensure_readBang_fst sMd hfM hwM, PDS.ensure_readBang_fst sHtml hfH hwH,
          PDS.ensure_readBang_snd sMd hfM hwM, PDS.ensure_readBang_snd sHtml hfH hwH] at hids ⊢
        by_cases hg : (sHtml.peekPage || sMd.peekPage) = true
        · rw [if_pos hg] at hids ⊢
          rcases hcb : cb sMd.content sHtml.content with e | id
          · rw [hcb] at hids
            simp at hids
          · -- page sent, streams reset; continue with the invariant
            rw [hcb] at hids
            dsimp only at hids ⊢
            have hstep := ih.2 cb evs (PDS.new sMd.sizeLimit) (PDS.new sHtml.sizeLimit)
              (acc ++ [id]) (log ++ [(pairs, sMd.content, sHtml.content)]) pairs
              (by omega) rfl rfl (PDS.wfP_new _) (PDS.wfP_new _) ids hids
            rcases hstep with ⟨h1, h2⟩
            constructor
            · rw [h1, mdConcat_append, mdConcat_single]
              simp
            · rw [h2, htmlConcat_append, htmlConcat_single]
              simp
        · rw [if_neg hg] at hids ⊢
          exact ih.2 cb evs sMd sHtml acc log pairs (by omega) hfM hfH hwM hwH ids hids
    refine ⟨hloop, ?_⟩
    intro cb evs sMd sHtml acc log pairs hfuel hfM hfH hwM hwH ids hids
    cases evs with
    | nil =>
      rw [stepPair_eq] at hids ⊢
      rw [incrementW_nil, incrementW_nil] at hids ⊢
      rw [checkEqual_of_eq rfl] at hids ⊢
      exact hloop cb [] sMd sHtml none acc log (pairs + 1) (by simp) (fun _ => rfl)
        hfM hfH hwM hwH ids hids
    | cons e rest =>
      rw [stepPair_eq] at hids ⊢
      rw [incW_fst, incW_fst, incW_rest, incW_rest] at hids ⊢
      rw [checkEqual_of_eq rfl] at hids ⊢
      have hlen : rest.length + 1 ≤ n + 1 := by simpa using hfuel
      have h := hloop cb rest
        ((incrementW mdR (e :: rest) sMd).2.2) ((incrementW htmlR (e :: rest) sHtml).2.2)
        (some e.ref) acc log (pairs + 1) hlen (by intro hno; cases hno)
        (by rw [incW_forced]; exact hfM) (by rw [incW_forced]; exact hfH)
        (incW_wfP mdR e rest hwM) (incW_wfP htmlR e rest hwH) ids hids
      rcases h with ⟨h1, h2⟩
      constructor
      · rw [h1, incW_content, emitAll_cons]
        simp [String.append_assoc]
      · rw [h2, incW_content, emitAll_cons]
        simp [String.append_assoc]

/-! ## Small documents: below the limit nothing is sent until the final flush -/

theorem small_run (mdR htmlR : Renderer) (fuel : Nat) :
    (∀ (cb : SendCB) (sMd sHtml : PDS)
      (acc : List String) (log : List (Nat × String × String)) (pairs : Nat),
      1 ≤ fuel →
      sMd.forced = false → sHtml.forced = false → sMd.wfP → sHtml.wfP →
      0 < sMd.sizeLimit → 0 < sHtml.sizeLimit →
      ((sMd.content = "" ∧ sHtml.content = "" →
        renderLoop cb (incrementW mdR) (incrementW htmlR) fuel [] [] sMd sHtml none acc log pairs
          = { result := .ok acc, collected := acc, log := log, pairs := pairs }) ∧
       (¬ (sMd.content = "" ∧ sHtml.content = "") →
        (renderLoop cb (incrementW mdR) (incrementW htmlR) fuel [] [] sMd sHtml none
            acc log pairs).log = log ++ [(pairs, sMd.content, sHtml.content)] ∧
        (renderLoop cb (incrementW mdR) (incrementW htmlR) fuel [] [] sMd sHtml none
            acc log pairs).pairs = pairs ∧
        (∀ id, cb sMd.content sHtml.content = .ok id →
          renderLoop cb (incrementW mdR) (incrementW htmlR) fuel [] [] sMd sHtml none acc log pairs
            = { result := .ok (acc ++ [id]), collected := acc ++ [id]
                log := log ++ [(pairs, sMd.content, sHtml.content)], pairs := pairs }) ∧
        (∀ e, cb sMd.content sHtml.content = .error e →
          renderLoop cb (incrementW mdR) (incrementW htmlR) fuel [] [] sMd sHtml none acc log pairs
            = { result := .error (.sendFailure e), collected := acc
                log := log ++ [(pairs, sMd.content, sHtml.content)], pairs := pairs })))) ∧
    (∀ (cb : SendCB) (evs : List FringeEvent) (sMd sHtml : PDS) (p : NodeRef)
      (acc : List String) (log : List (Nat × String × String)) (pairs : Nat),
      evs.length + 2 ≤ fuel →
      sMd.forced = false → sHtml.forced = false → sMd.wfP → sHtml.wfP →
      (sMd.content ++ emitAll mdR evs).length < sMd.sizeLimit →
      (sHtml.content ++ emitAll htmlR evs).length < sHtml.sizeLimit →
      ((sMd.content ++ emitAll mdR evs = "" ∧ sHtml.content ++ emitAll htmlR evs = "" →
        renderLoop cb (incrementW mdR) (incrementW htmlR) fuel evs evs sMd sHtml (some p) acc log pairs
          = { result := .ok acc, collected := acc, log := log, pairs := pairs + evs.length + 1 }) ∧
       (¬ (sMd.content ++ emitAll mdR evs = "" ∧ sHtml.content ++ emitAll htmlR evs = "") →
        (renderLoop cb (incrementW mdR) (incrementW htmlR) fuel evs evs sMd sHtml (some p)
            acc log pairs).log
          = log ++ [(pairs + evs.length + 1, sMd.content ++ emitAll mdR evs,
              sHtml.content ++ emitAll htmlR evs)] ∧
        (renderLoop cb (incrementW mdR) (incrementW htmlR) fuel evs evs sMd sHtml (some p)
            acc log pairs).pairs = pairs + evs.length + 1 ∧
        (∀ id, cb (sMd.content ++ emitAll mdR evs) (sHtml.content ++ emitAll htmlR evs) = .ok id →
          renderLoop cb (incrementW mdR) (incrementW htmlR) fuel evs evs sMd sHtml (some p) acc log pairs
            = { result := .ok (acc ++ [id]), collected := acc ++ [id]
                log := log ++ [(pairs + evs.length + 1, sMd.content ++ emitAll mdR evs,
                  sHtml.content ++ emitAll htmlR evs)], pairs := pairs + evs.length + 1 }) ∧
        (∀ e, cb (sMd.content ++ emitAll mdR evs) (sHtml.content ++ emitAll htmlR evs) = .error e →
          renderLoop cb (incrementW mdR) (incrementW htmlR) fuel evs evs sMd sHtml (some p) acc log pairs
            = { result := .error (.sendFailure e), collected := acc
                log := log ++ [(pairs + evs.length + 1, sMd.content ++ emitAll mdR evs,
                  sHtml.content ++ emitAll htmlR evs)], pairs := pairs + evs.length + 1 })))) ∧
    (∀ (cb : SendCB) (evs : List FringeEvent) (sMd sHtml : PDS)
      (acc : List String) (log : List (Nat × String × String)) (pairs : Nat),
      evs.length + 1 ≤ fuel →
      sMd.forced = false → sHtml.forced = false → sMd.wfP → sHtml.wfP →
      (sMd.content ++ emitAll mdR evs).length < sMd.sizeLimit →
      (sHtml.content ++ emitAll htmlR evs).length < sHtml.sizeLimit →
      ((sMd.content ++ emitAll mdR evs = "" ∧ sHtml.content ++ emitAll htmlR evs = "" →
        stepPair cb (incrementW mdR) (incrementW htmlR) fuel evs evs sMd sHtml acc log pairs
          = { result := .ok acc, collected := acc, log := log, pairs := pairs + evs.length + 1 }) ∧
       (¬ (sMd.content ++ emitAll mdR evs = "" ∧ sHtml.content ++ emitAll htmlR evs = "") →
        (stepPair cb (incrementW mdR) (incrementW htmlR) fuel evs evs sMd sHtml acc log pairs).log
          = log ++ [(pairs + evs.length + 1, sMd.content ++ emitAll mdR evs,
              sHtml.content ++ emitAll htmlR evs)] ∧
        (stepPair cb (incrementW mdR) (incrementW htmlR) fuel evs evs sMd sHtml
            acc log pairs).pairs = pairs + evs.length + 1 ∧
        (∀ id, cb (sMd.content ++ emitAll mdR evs) (sHtml.content ++ emitAll htmlR evs) = .ok id →
          stepPair cb (incrementW mdR) (incrementW htmlR) fuel evs evs sMd sHtml acc log pairs
            = { result := .ok (acc ++ [id]), collected := acc ++ [id]
                log := log ++ [(pairs + evs.length + 1, sMd.content ++ emitAll mdR evs,
                  sHtml.content ++ emitAll htmlR evs)], pairs := pairs + evs.length + 1 }) ∧
        (∀ e, cb (sMd.content ++ emitAll mdR evs) (sHtml.content ++ emitAll htmlR evs) = .error e →
          stepPair cb (incrementW mdR) (incrementW htmlR) fuel evs evs sMd sHtml acc log pairs
            = { result := .error (.sendFailure e), collected := acc
                log := log ++ [(pairs + evs.length + 1, sMd.content ++ emitAll mdR evs,
                  sHtml.content ++ emitAll htmlR evs)], pairs := pairs + evs.length + 1 })))) := by
  induction fuel with
  | zero =>
    refine ⟨?_, ?_, ?_⟩
    · intro cb sMd sHtml acc log pairs hfuel
      omega
    · intro cb evs sMd sHtml p acc log pairs hfuel
      omega
    · intro cb evs sMd sHtml acc log pairs hfuel
      omega
  | succ n ih =>
    have hnone : ∀ (cb : SendCB) (sMd sHtml : PDS)
        (acc : List String) (log : List (Nat × String × String)) (pairs : Nat),
        sMd.forced = false → sHtml.forced = false → sMd.wfP → sHtml.wfP →
        0 < sMd.sizeLimit → 0 < sHtml.sizeLimit →
        ((sMd.content = "" ∧ sHtml.content = "" →
          renderLoop cb (incrementW mdR) (incrementW htmlR) (n + 1) [] [] sMd sHtml none acc log pairs
            = { result := .ok acc, collected := acc, log := log, pairs := pairs }) ∧
         (¬ (sMd.content = "" ∧ sHtml.content = "") →
          (renderLoop cb (incrementW mdR) (incrementW htmlR) (n + 1) [] [] sMd sHtml none
              acc log pairs).log = log ++ [(pairs, sMd.content, sHtml.content)] ∧
          (renderLoop cb (incrementW mdR) (incrementW htmlR) (n + 1) [] [] sMd sHtml none
              acc log pairs).pairs = pairs ∧
          (∀ id, cb sMd.content sHtml.content = .ok id →
            renderLoop cb (incrementW mdR) (incrementW htmlR) (n + 1) [] [] sMd sHtml none acc log pairs
              = { result := .ok (acc ++ [id]), collected := acc ++ [id]
                  log := log ++ [(pairs, sMd.content, sHtml.content)], pairs := pairs }) ∧
          (∀ e, cb sMd.content sHtml.content = .error e →
            renderLoop cb (incrementW mdR) (incrementW htmlR) (n + 1) [] [] sMd sHtml none acc log pairs
              = { result := .error (.sendFailure e), collected := acc
                  log := log ++ [(pairs, sMd.content, sHtml.content)], pairs := pairs }))) := by
      intro cb sMd sHtml acc log pairs hfM hfH hwM hwH hlM hlH
      rw [renderLoop_succ_none,
        PDS.ensure_readBang_fst sMd hfM hwM, PDS.ensure_readBang_fst sHtml hfH hwH]
      constructor
      · intro ⟨hcM, hcH⟩
        have hpM : sMd.ensureNewPage.peekPage = false := by
          rw [PDS.ensure_eq_self sMd hcM]
          apply PDS.peek_false sMd hfM
          have := (PDS.committed_eq_nil_of_content_empty hwM hcM).1
          simp [PDS.committedLength, this]
          omega
        have hpH : sHtml.ensureNewPage.peekPage = false := by
          rw [PDS.ensure_eq_self sHtml hcH]
          apply PDS.peek_false sHtml hfH
          have := (PDS.committed_eq_nil_of_content_empty hwH hcH).1
          simp [PDS.committedLength, this]
          omega
        rw [hpM, hpH]
        simp
      · intro hne
        have hg : (sHtml.ensureNewPage.peekPage || sMd.ensureNewPage.peekPage) = true := by
          by_cases hcM : sMd.content = ""
          · have hcH : ¬ sHtml.content = "" := fun h => hne ⟨hcM, h⟩
            rw [PDS.ensure_peek_true sHtml hcH]
            simp
          · rw [PDS.ensure_peek_true sMd hcM]
            simp
        rw [if_pos hg]
        rcases hcb : cb sMd.content sHtml.content with e | id
        · refine ⟨rfl, rfl, ?_, ?_⟩
          · intro id hid
            cases hid
          · intro e2 he2
            cases he2
            rfl
        · refine ⟨rfl, rfl, ?_, ?_⟩
          · intro id2 hid2
            cases hid2
            rfl
          · intro e he
            cases he
    have hsome : ∀ (cb : SendCB) (evs : List FringeEvent) (sMd sHtml : PDS) (p : NodeRef)
        (acc : List String) (log : List (Nat × String × String)) (pairs : Nat),
        evs.length + 2 ≤ n + 1 →
        sMd.forced = false → sHtml.forced = false → sMd.wfP → sHtml.wfP →
        (sMd.content ++ emitAll mdR evs).length < sMd.sizeLimit →
        (sHtml.content ++ emitAll htmlR evs).length < sHtml.sizeLimit →
        ((sMd.content ++ emitAll mdR evs = "" ∧ sHtml.content ++ emitAll htmlR evs = "" →
          renderLoop cb (incrementW mdR) (incrementW htmlR) (n + 1) evs evs sMd sHtml (some p) acc log pairs
            = { result := .ok acc, collected := acc, log := log, pairs := pairs + evs.length + 1 }) ∧
         (¬ (sMd.content ++ emitAll mdR evs = "" ∧ sHtml.content ++ emitAll htmlR evs = "") →
          (renderLoop cb (incrementW mdR) (incrementW htmlR) (n + 1) evs evs sMd sHtml (some p)
              acc log pairs).log
            = log ++ [(pairs + evs.length + 1, sMd.content ++ emitAll mdR evs,
                sHtml.content ++ emitAll htmlR evs)] ∧
          (renderLoop cb (incrementW mdR) (incrementW htmlR) (n + 1) evs evs sMd sHtml (some p)
              acc log pairs).pairs = pairs + evs.length + 1 ∧
          (∀ id, cb (sMd.content ++ emitAll mdR evs) (sHtml.content ++ emitAll htmlR evs) = .ok id →
            renderLoop cb (incrementW mdR) (incrementW htmlR) (n + 1) evs evs sMd sHtml (some p) acc log pairs
              = { result := .ok (acc ++ [id]), collected := acc ++ [id]
                  log := log ++ [(pairs + evs.length + 1, sMd.content ++ emitAll mdR evs,
                    sHtml.content ++ emitAll htmlR evs)], pairs := pairs + evs.length + 1 }) ∧
          (∀ e, cb (sMd.content ++ emitAll mdR evs) (sHtml.content ++ emitAll htmlR evs) = .error e →
            renderLoop cb (incrementW mdR) (incrementW htmlR) (n + 1) evs evs sMd sHtml (some p) acc log pairs
              = { result := .error (.sendFailure e), collected := acc
                  log := log ++ [(pairs + evs.length + 1, sMd.content ++ emitAll mdR evs,
                    sHtml.content ++ emitAll htmlR evs)], pairs := pairs + evs.length + 1 }))) := by
      intro cb evs sMd sHtml p acc log pairs hfuel hfM hfH hwM hwH hlM hlH
      have hpM : sMd.peekPage = false := by
        apply PDS.peek_false sMd hfM
        have h1 := PDS.committedLength_le_content_length sMd
        have h2 : sMd.content.length ≤ (sMd.content ++ emitAll mdR evs).length := by
          rw [String.length_append]
          omega
        omega
      have hpH : sHtml.peekPage = false := by
        apply PDS.peek_false sHtml hfH
        have h1 := PDS.committedLength_le_content_length sHtml
        have h2 : sHtml.content.length ≤ (sHtml.content ++ emitAll htmlR evs).length := by
          rw [String.length_append]
          omega
        omega
      have hguard : (sHtml.peekPage || sMd.peekPage) = false := by
        rw [hpM, hpH]
        rfl
      rw [renderLoop_succ_some, hguard, if_neg (by decide : ¬ (false = true))]
      exact ih.2.2 cb evs sMd sHtml acc log pairs (by omega) hfM hfH hwM hwH hlM hlH
    refine ⟨?_, hsome, ?_⟩
    · intro cb sMd sHtml acc log pairs _ hfM hfH hwM hwH hlM hlH
      exact hnone cb sMd sHtml acc log pairs hfM hfH hwM hwH hlM hlH
    · intro cb evs sMd sHtml acc log pairs hfuel hfM hfH hwM hwH hlM hlH
      cases evs with
      | nil =>
        rw [stepPair_eq, incrementW_nil, incrementW_nil, checkEqual_of_eq rfl]
        have h0M : 0 < sMd.sizeLimit := by
          have := String.length_append sMd.content (emitAll mdR [])
          omega
        have h0H : 0 < sHtml.sizeLimit := by
          have := String.length_append sHtml.content (emitAll htmlR [])
          omega
        have h := hnone cb sMd sHtml acc log (pairs + 1) hfM hfH hwM hwH h0M h0H
        simpa [emitAll_nil] using h
      | cons e rest =>
        rw [stepPair_eq, incW_fst, incW_fst, incW_rest, incW_rest, checkEqual_of_eq rfl]
        have hlen : rest.length + 2 ≤ n + 1 := by simpa using hfuel
        have hcM : ((incrementW mdR (e :: rest) sMd).2.2).content ++ emitAll mdR rest
            = sMd.content ++ emitAll mdR (e :: rest) := by
          rw [incW_content, emitAll_cons, String.append_assoc]
        have hcH : ((incrementW htmlR (e :: rest) sHtml).2.2).content ++ emitAll htmlR rest
            = sHtml.content ++ emitAll htmlR (e :: rest) := by
          rw [incW_content, emitAll_cons, String.append_assoc]
        have h := hsome cb rest
          ((incrementW mdR (e :: rest) sMd).2.2) ((incrementW htmlR (e :: rest) sHtml).2.2)
          e.ref acc log (pairs + 1) hlen
          (by rw [incW_forced]; exact hfM) (by rw [incW_forced]; exact hfH)
          (incW_wfP mdR e rest hwM) (incW_wfP htmlR e rest hwH)
          (by rw [hcM, incW_sizeLimit]; exact hlM)
          (by rw [hcH, incW_sizeLimit]; exact hlH)
        rw [hcM, hcH] at h
        have hp : pairs + 1 + rest.length + 1 = pairs + (e :: rest).length + 1 := by
          simp
          omega
        rw [hp] at h
        exact h

/-! ## Send order: tags increase and every page covers a prefix of the traversal -/

theorem emitAll_append (R : Renderer) (l1 l2 : List FringeEvent) :
    emitAll R (l1 ++ l2) = emitAll R l1 ++ emitAll R l2 := by
  simp [emitAll, join_append]

theorem log_take_get (l : List (Nat × String × String)) (x : Nat × String × String)
    (j : Nat) (hj : j < l.length) (d : Nat × String × String) :
    ((l ++ [x]).take (j + 1) = l.take (j + 1)) ∧ ((l ++ [x]).getD j d = l.getD j d) := by
  constructor
  · exact List.take_append_of_le_length (by omega)
  · simp [List.getD, List.getElem?_append, hj]

theorem getD_concat_length (l : List (Nat × String × String)) (x d : Nat × String × String) :
    (l ++ [x]).getD l.length d = x := by
  simp [List.getD, List.getElem?_append]

/-- Send-order bookkeeping: the pair tags of the invocation log are
strictly increasing, and the pages sent so far always concatenate to the
rendering of a prefix of the fringe — the prefix consisting of exactly
the events consumed by the increments performed before that send. -/
theorem strong_run (mdR htmlR : Renderer) (fuel : Nat) :
    (∀ (cb : SendCB) (done : List FringeEvent) (sMd sHtml : PDS)
      (acc : List String) (log : List (Nat × String × String)) (pairs : Nat),
      sMd.forced = false → sHtml.forced = false → sMd.wfP → sHtml.wfP →
      mdConcat log ++ sMd.content = emitAll mdR done →
      htmlConcat log ++ sHtml.content = emitAll htmlR done →
      pairs = done.length + 1 →
      (∀ t ∈ log.map (fun x => x.1), t < pairs) →
      List.Pairwise (· < ·) (log.map (fun x => x.1)) →
      (∀ j, j < log.length →
        mdConcat (log.take (j + 1)) = emitAll mdR (done.take (log.getD j (0, "", "")).1) ∧
        htmlConcat (log.take (j + 1)) = emitAll htmlR (done.take (log.getD j (0, "", "")).1)) →
      List.Pairwise (· < ·)
        ((renderLoop cb (incrementW mdR) (incrementW htmlR) fuel [] [] sMd sHtml none
          acc log pairs).log.map (fun x => x.1)) ∧
      (∀ j, j < (renderLoop cb (incrementW mdR) (incrementW htmlR) fuel [] [] sMd sHtml none
          acc log pairs).log.length →
        mdConcat ((renderLoop cb (incrementW mdR) (incrementW htmlR) fuel [] [] sMd sHtml none
            acc log pairs).log.take (j + 1))
          = emitAll mdR (done.take ((renderLoop cb (incrementW mdR) (incrementW htmlR) fuel
              [] [] sMd sHtml none acc log pairs).log.getD j (0, "", "")).1) ∧
        htmlConcat ((renderLoop cb (incrementW mdR) (incrementW htmlR) fuel [] [] sMd sHtml none
            acc log pairs).log.take (j + 1))
          = emitAll htmlR (done.take ((renderLoop cb (incrementW mdR) (incrementW htmlR) fuel
              [] [] sMd sHtml none acc log pairs).log.getD j (0, "", "")).1))) ∧
    (∀ (cb : SendCB) (done evs : List FringeEvent) (sMd sHtml : PDS) (p : NodeRef)
      (acc : List String) (log : List (Nat × String × String)) (pairs : Nat),
      evs.length + 1 ≤ fuel →
      sMd.forced = false → sHtml.forced = false → sMd.wfP → sHtml.wfP →
      mdConcat log ++ sMd.content = emitAll mdR done →
      htmlConcat log ++ sHtml.content = emitAll htmlR done →
      pairs = done.length →
      (∀ t ∈ log.map (fun x => x.1), t < pairs) →
      List.Pairwise (· < ·) (log.map (fun x => x.1)) →
      (∀ j, j < log.length →
        mdConcat (log.take (j + 1))
          = emitAll mdR ((done ++ evs).take (log.getD j (0, "", "")).1) ∧
        htmlConcat (log.take (j + 1))
          = emitAll htmlR ((done ++ evs).take (log.getD j (0, "", "")).1)) →
      List.Pairwise (· < ·)
        ((renderLoop cb (incrementW mdR) (incrementW htmlR) fuel evs evs sMd sHtml (some p)
          acc log pairs).log.map (fun x => x.1)) ∧
      (∀ j, j < (renderLoop cb (incrementW mdR) (incrementW htmlR) fuel evs evs sMd sHtml
          (some p) acc log pairs).log.length →
        mdConcat ((renderLoop cb (incrementW mdR) (incrementW htmlR) fuel evs evs sMd sHtml
            (some p) acc log pairs).log.take (j + 1))
          = emitAll mdR ((done ++ evs).take ((renderLoop cb (incrementW mdR) (incrementW htmlR)
              fuel evs evs sMd sHtml (some p) acc log pairs).log.getD j (0, "", "")).1) ∧
        htmlConcat ((renderLoop cb (incrementW mdR) (incrementW htmlR) fuel evs evs sMd sHtml
            (some p) acc log pairs).log.take (j + 1))
          = emitAll htmlR ((done ++ evs).take ((renderLoop cb (incrementW mdR) (incrementW htmlR)
              fuel evs evs sMd sHtml (some p) acc log pairs).log.getD j (0, "", "")).1))) ∧
    (∀ (cb : SendCB) (done evs : List FringeEvent) (sMd sHtml : PDS)
      (acc : List String) (log : List (Nat × String × String)) (pairs : Nat),
      evs.length ≤ fuel →
      sMd.forced = false → sHtml.forced = false → sMd.wfP → sHtml.wfP →
      mdConcat log ++ sMd.content = emitAll mdR done →
      htmlConcat log ++ sHtml.content = emitAll htmlR done →
      pairs = done.length →
      (∀ t ∈ log.map (fun x => x.1), t ≤ pairs) →
      List.Pairwise (· < ·) (log.map (fun x => x.1)) →
      (∀ j, j < log.length →
        mdConcat (log.take (j + 1))
          = emitAll mdR ((done ++ evs).take (log.getD j (0, "", "")).1) ∧
        htmlConcat (log.take (j + 1))
          = emitAll htmlR ((done ++ evs).take (log.getD j (0, "", "")).1)) →
      List.Pairwise (· < ·)
        ((stepPair cb (incrementW mdR) (incrementW htmlR) fuel evs evs sMd sHtml
          acc log pairs).log.map (fun x => x.1)) ∧
      (∀ j, j < (stepPair cb (incrementW mdR) (incrementW htmlR) fuel evs evs sMd sHtml
          acc log pairs).log.length →
        mdConcat ((stepPair cb (incrementW mdR) (incrementW htmlR) fuel evs evs sMd sHtml
            acc log pairs).log.take (j + 1))
          = emitAll mdR ((done ++ evs).take ((stepPair cb (incrementW mdR) (incrementW htmlR)
              fuel evs evs sMd sHtml acc log pairs).log.getD j (0, "", "")).1) ∧
        htmlConcat ((stepPair cb (incrementW mdR) (incrementW htmlR) fuel evs evs sMd sHtml
            acc log pairs).log.take (j + 1))
          = emitAll htmlR ((done ++ evs).take ((stepPair cb (incrementW mdR) (incrementW htmlR)
              fuel evs evs sMd sHtml acc log pairs).log.getD j (0, "", "")).1))) := by
  induction fuel with
  | zero =>
    refine ⟨?_, ?_, ?_⟩
    · intro cb done sMd sHtml acc log pairs _ _ _ _ _ _ _ _ hpw hpre
      rw [renderLoop_zero]
      exact ⟨hpw, hpre⟩
    · intro cb done evs sMd sHtml p acc log pairs hfuel
      omega
    · intro cb done evs sMd sHtml acc log pairs hfuel hfM hfH hwM hwH haccM haccH hp htags
        hpw hpre
      have h0 : evs = [] := by
        cases evs with
        | nil => rfl
        | cons e rest => simp at hfuel
      subst h0
      rw [stepPair_eq, incrementW_nil, incrementW_nil, checkEqual_of_eq rfl, renderLoop_zero]
      exact ⟨hpw, by simpa using hpre⟩
  | succ n ih =>
    have hsendlog : ∀ (done : List FringeEvent) (log : List (Nat × String × String))
        (pairs : Nat) (tM tH : String),
        mdConcat log ++ tM = emitAll mdR done →
        htmlConcat log ++ tH = emitAll htmlR done →
        (∀ t ∈ log.map (fun x => x.1), t < pairs) →
        List.Pairwise (· < ·) (log.map (fun x => x.1)) →
        (∀ j, j < log.length →
          mdConcat (log.take (j + 1)) = emitAll mdR (done.take (log.getD j (0, "", "")).1) ∧
          htmlConcat (log.take (j + 1)) = emitAll htmlR (done.take (log.getD j (0, "", "")).1)) →
        done.length ≤ pairs →
        List.Pairwise (· < ·) ((log ++ [(pairs, tM, tH)]).map (fun x => x.1)) ∧
        (∀ j, j < (log ++ [(pairs, tM, tH)]).length →
          mdConcat ((log ++ [(pairs, tM, tH)]).take (j + 1))
            = emitAll mdR (done.take ((log ++ [(pairs, tM, tH)]).getD j (0, "", "")).1) ∧
          htmlConcat ((log ++ [(pairs, tM, tH)]).take (j + 1))
            = emitAll htmlR (done.take ((log ++ [(pairs, tM, tH)]).getD j (0, "", "")).1)) := by
      intro done log pairs tM tH haccM haccH htags hpw hpre hdp
      constructor
      · rw [List.map_append, List.pairwise_append]
        refine ⟨hpw, by simp, ?_⟩
        intro a ha b hb
        simp at hb
        subst hb
        exact htags a ha
      · intro j hj
        rcases Nat.lt_or_ge j log.length with hlt | hge
        · rw [(log_take_get log (pairs, tM, tH) j hlt (0, "", "")).1,
            (log_take_get log (pairs, tM, tH) j hlt (0, "", "")).2]
          exact hpre j hlt
        · have hjeq : j = log.length := by
            simp at hj
            omega
          subst hjeq
          have htake : (log ++ [(pairs, tM, tH)]).take (log.length + 1)
              = log ++ [(pairs, tM, tH)] :=
            List.take_of_length_le (by simp)
          rw [htake, getD_concat_length, mdConcat_append, htmlConcat_append, mdConcat_single,
            htmlConcat_single]
          have hdone : done.take pairs = done := List.take_of_length_le hdp
          rw [hdone]
          exact ⟨haccM, haccH⟩
    have hnone : ∀ (cb : SendCB) (done : List FringeEvent) (sMd sHtml : PDS)
        (acc : List String) (log : List (Nat × String × String)) (pairs : Nat),
        sMd.forced = false → sHtml.forced = false → sMd.wfP → sHtml.wfP →
        mdConcat log ++ sMd.content = emitAll mdR done →
        htmlConcat log ++ sHtml.content = emitAll htmlR done →
        pairs = done.length + 1 →
        (∀ t ∈ log.map (fun x => x.1), t < pairs) →
        List.Pairwise (· < ·) (log.map (fun x => x.1)) →
        (∀ j, j < log.length →
          mdConcat (log.take (j + 1)) = emitAll mdR (done.take (log.getD j (0, "", "")).1) ∧
          htmlConcat (log.take (j + 1)) = emitAll htmlR (done.take (log.getD j (0, "", "")).1)) →
        List.Pairwise (· < ·)
          ((renderLoop cb (incrementW mdR) (incrementW htmlR) (n + 1) [] [] sMd sHtml none
            acc log pairs).log.map (fun x => x.1)) ∧
        (∀ j, j < (renderLoop cb (incrementW mdR) (incrementW htmlR) (n + 1) [] [] sMd sHtml
            none acc log pairs).log.length →
          mdConcat ((renderLoop cb (incrementW mdR) (incrementW htmlR) (n + 1) [] [] sMd sHtml
              none acc log pairs).log.take (j + 1))
            = emitAll mdR (done.take ((renderLoop cb (incrementW mdR) (incrementW htmlR) (n + 1)
                [] [] sMd sHtml none acc log pairs).log.getD j (0, "", "")).1) ∧
          htmlConcat ((renderLoop cb (incrementW mdR) (incrementW htmlR) (n + 1) [] [] sMd sHtml
              none acc log pairs).log.take (j + 1))
            = emitAll htmlR (done.take ((renderLoop cb (incrementW mdR) (incrementW htmlR) (n + 1)
                [] [] sMd sHtml none acc log pairs).log.getD j (0, "", "")).1)) := by
      intro cb done sMd sHtml acc log pairs hfM hfH hwM hwH haccM haccH hp htags hpw hpre
      rw [renderLoop_succ_none,
        PDS.ensure_readBang_fst sMd hfM hwM, PDS.ensure_readBang_fst sHtml hfH hwH]
      split
      · rcases hcb : cb sMd.content sHtml.content with e | id
        · exact hsendlog done log pairs sMd.content sHtml.content haccM haccH htags hpw
            hpre (by omega)
        · exact hsendlog done log pairs sMd.content sHtml.content haccM haccH htags hpw
            hpre (by omega)
      · exact ⟨hpw, hpre⟩
    have hsome : ∀ (cb : SendCB) (done evs : List FringeEvent) (sMd sHtml : PDS) (p : NodeRef)
        (acc : List String) (log : List (Nat × String × String)) (pairs : Nat),
        evs.length + 1 ≤ n + 1 →
        sMd.forced = false → sHtml.forced = false → sMd.wfP → sHtml.wfP →
        mdConcat log ++ sMd.content = emitAll mdR done →
        htmlConcat log ++ sHtml.content = emitAll htmlR done →
        pairs = done.length →
        (∀ t ∈ log.map (fun x => x.1), t < pairs) →
        List.Pairwise (· < ·) (log.map (fun x => x.1)) →
        (∀ j, j < log.length →
          mdConcat (log.take (j + 1))
            = emitAll mdR ((done ++ evs).take (log.getD j (0, "", "")).1) ∧
          htmlConcat (log.take (j + 1))
            = emitAll htmlR ((done ++ evs).take (log.getD j (0, "", "")).1)) →
        List.Pairwise (· < ·)
          ((renderLoop cb (incrementW mdR) (incrementW htmlR) (n + 1) evs evs sMd sHtml (some p)
            acc log pairs).log.map (fun x => x.1)) ∧
        (∀ j, j < (renderLoop cb (incrementW mdR) (incrementW htmlR) (n + 1) evs evs sMd
            sHtml (some p) acc log pairs).log.length →
          mdConcat ((renderLoop cb (incrementW mdR) (incrementW htmlR) (n + 1) evs evs sMd sHtml
              (some p) acc log pairs).log.take (j + 1))
            = emitAll mdR ((done ++ evs).take ((renderLoop cb (incrementW mdR) (incrementW htmlR)
                (n + 1) evs evs sMd sHtml (some p) acc log pairs).log.getD j (0, "", "")).1) ∧
          htmlConcat ((renderLoop cb (incrementW mdR) (incrementW htmlR) (n + 1) evs evs sMd
              sHtml (some p) acc log pairs).log.take (j + 1))
            = emitAll htmlR ((done ++ evs).take ((renderLoop cb (incrementW mdR)
                (incrementW htmlR) (n + 1) evs evs sMd sHtml (some p) acc log
                pairs).log.getD j (0, "", "")).1)) := by
      intro cb done evs sMd sHtml p acc log pairs hfuel hfM hfH hwM hwH haccM haccH hp htags
        hpw hpre
      rw [renderLoop_succ_some,
        PDS.ensure_readBang_fst sMd hfM hwM, PDS.ensure_readBang_fst sHtml hfH hwH,
        PDS.ensure_readBang_snd sMd hfM hwM, PDS.ensure_readBang_snd sHtml hfH hwH]
      have htake_pairs : (done ++ evs).take pairs = done := by
        rw [hp, List.take_append_of_le_length (by omega), List.take_of_length_le (by omega)]
      have hpre1 : ∀ j, j < (log ++ [(pairs, sMd.content, sHtml.content)]).length →
          mdConcat ((log ++ [(pairs, sMd.content, sHtml.content)]).take (j + 1))
            = emitAll mdR ((done ++ evs).take
                (((log ++ [(pairs, sMd.content, sHtml.content)]).getD j (0, "", "")).1)) ∧
          htmlConcat ((log ++ [(pairs, sMd.content, sHtml.content)]).take (j + 1))
            = emitAll htmlR ((done ++ evs).take
                (((log ++ [(pairs, sMd.content, sHtml.content)]).getD j (0, "", "")).1)) := by
        intro j hj
        rcases Nat.lt_or_ge j log.length with hlt | hge
        · rw [(log_take_get log (pairs, sMd.content, sHtml.content) j hlt (0, "", "")).1,
            (log_take_get log (pairs, sMd.content, sHtml.content) j hlt (0, "", "")).2]
          exact hpre j hlt
        · have hjeq : j = log.length := by
            simp at hj
            omega
          subst hjeq
          have htake : (log ++ [(pairs, sMd.content, sHtml.content)]).take (log.length + 1)
              = log ++ [(pairs, sMd.content, sHtml.content)] :=
            List.take_of_length_le (by simp)
          rw [htake, getD_concat_length, mdConcat_append, htmlConcat_append, mdConcat_single,
            htmlConcat_single, htake_pairs]
          exact ⟨haccM, haccH⟩
      have hpw1 : List.Pairwise (· < ·)
          ((log ++ [(pairs, sMd.content, sHtml.content)]).map (fun x => x.1)) := by
        rw [List.map_append, List.pairwise_append]
        refine ⟨hpw, by simp, ?_⟩
        intro a ha b hb
        simp at hb
        subst hb
        exact htags a ha
      split
      · rcases hcb : cb sMd.content sHtml.content with e | id
        · exact ⟨hpw1, hpre1⟩
        · apply ih.2.2 cb done evs (PDS.new sMd.sizeLimit) (PDS.new sHtml.sizeLimit)
            (acc ++ [id]) (log ++ [(pairs, sMd.content, sHtml.content)]) pairs
            (by omega) rfl rfl (PDS.wfP_new _) (PDS.wfP_new _)
          · rw [mdConcat_append, mdConcat_single]
            simpa using haccM
          · rw [htmlConcat_append, htmlConcat_single]
            simpa using haccH
          · exact hp
          · intro t ht
            simp at ht
            rcases ht with ht | ht
            · rcases ht with ⟨a, b, hab⟩
              exact Nat.le_of_lt (htags t (by simp; exact ⟨a, b, hab⟩))
            · omega
          · exact hpw1
          · exact hpre1
      · apply ih.2.2 cb done evs sMd sHtml acc log pairs (by omega) hfM hfH hwM hwH haccM haccH
          hp (fun t ht => Nat.le_of_lt (htags t ht)) hpw hpre
    refine ⟨?_, hsome, ?_⟩
    · intro cb done sMd sHtml acc log pairs hfM hfH hwM hwH haccM haccH hp htags hpw hpre
      exact hnone cb done sMd sHtml acc log pairs hfM hfH hwM hwH haccM haccH hp htags hpw hpre
    · intro cb done evs sMd sHtml acc log pairs hfuel hfM hfH hwM hwH haccM haccH hp htags
        hpw hpre
      cases evs with
      | nil =>
        rw [stepPair_eq, incrementW_nil, incrementW_nil, checkEqual_of_eq rfl]
        dsimp only
        rw [show done ++ ([] : List FringeEvent) = done from List.append_nil done]
        apply hnone cb done sMd sHtml acc log (pairs + 1) hfM hfH hwM hwH haccM haccH
          (by omega) (fun t ht => by have := htags t ht; omega) hpw
        intro j hj
        simpa using hpre j hj
      | cons e rest =>
        rw [stepPair_eq, incW_fst, incW_fst, incW_rest, incW_rest, checkEqual_of_eq rfl]
        have haccM2 : mdConcat log ++ ((incrementW mdR (e :: rest) sMd).2.2).content
            = emitAll mdR (done ++ [e]) := by
          rw [incW_content, emitAll_append, ← String.append_assoc, haccM]
          simp [emitAll_cons, emitAll_nil]
        have haccH2 : htmlConcat log ++ ((incrementW htmlR (e :: rest) sHtml).2.2).content
            = emitAll htmlR (done ++ [e]) := by
          rw [incW_content, emitAll_append, ← String.append_assoc, haccH]
          simp [emitAll_cons, emitAll_nil]
        have hpre2 : ∀ j, j < log.length →
            mdConcat (log.take (j + 1))
              = emitAll mdR (((done ++ [e]) ++ rest).take (log.getD j (0, "", "")).1) ∧
            htmlConcat (log.take (j + 1))
              = emitAll htmlR (((done ++ [e]) ++ rest).take (log.getD j (0, "", "")).1) := by
          intro j hj
          have heq : (done ++ [e]) ++ rest = done ++ e :: rest := by
            rw [List.append_assoc]
            rfl
          rw [heq]
          exact hpre j hj
        have h := hsome cb (done ++ [e]) rest
          ((incrementW mdR (e :: rest) sMd).2.2) ((incrementW htmlR (e :: rest) sHtml).2.2)
          e.ref acc log (pairs + 1) (by simpa using hfuel)
          (by rw [incW_forced]; exact hfM) (by rw [incW_forced]; exact hfH)
          (incW_wfP mdR e rest hwM) (incW_wfP htmlR e rest hwH) haccM2 haccH2
          (by simp; omega) (fun t ht => by have := htags t ht; omega) hpw hpre2
        have heq : (done ++ [e]) ++ rest = done ++ e :: rest := by
          rw [List.append_assoc]
          rfl
        rw [heq] at h
        exact h

/-! ## Lockstep never fails for the two real walkers -/

theorem no_lockstep (mdR htmlR : Renderer) (fuel : Nat) :
    (∀ (cb : SendCB) (evs : List FringeEvent) (sMd sHtml : PDS) (cur : Option NodeRef)
      (acc : List String) (log : List (Nat × String × String)) (pairs : Nat),
      (renderLoop cb (incrementW mdR) (incrementW htmlR) fuel evs evs sMd sHtml cur
        acc log pairs).result ≠ .error .lockstep) ∧
    (∀ (cb : SendCB) (evs : List FringeEvent) (sMd sHtml : PDS)
      (acc : List String) (log : List (Nat × String × String)) (pairs : Nat),
      (stepPair cb (incrementW mdR) (incrementW htmlR) fuel evs evs sMd sHtml
        acc log pairs).result ≠ .error .lockstep) := by
  induction fuel with
  | zero =>
    have hr : ∀ (cb : SendCB) (evs : List FringeEvent) (sMd sHtml : PDS) (cur : Option NodeRef)
        (acc : List String) (log : List (Nat × String × String)) (pairs : Nat),
        (renderLoop cb (incrementW mdR) (incrementW htmlR) 0 evs evs sMd sHtml cur
          acc log pairs).result ≠ .error .lockstep := by
      intro cb evs sMd sHtml cur acc log pairs
      rw [renderLoop_zero]
      simp
    refine ⟨hr, ?_⟩
    intro cb evs sMd sHtml acc log pairs
    cases evs with
    | nil =>
      rw [stepPair_eq, incrementW_nil, incrementW_nil, checkEqual_of_eq rfl]
      exact hr cb [] sMd sHtml none acc log (pairs + 1)
    | cons e rest =>
      rw [stepPair_eq, incW_fst, incW_fst, incW_rest, incW_rest, checkEqual_of_eq rfl]
      exact hr cb rest _ _ (some e.ref) acc log (pairs + 1)
  | succ n ih =>
    have hr : ∀ (cb : SendCB) (evs : List FringeEvent) (sMd sHtml : PDS) (cur : Option NodeRef)
        (acc : List String) (log : List (Nat × String × String)) (pairs : Nat),
        (renderLoop cb (incrementW mdR) (incrementW htmlR) (n + 1) evs evs sMd sHtml cur
          acc log pairs).result ≠ .error .lockstep := by
      intro cb evs sMd sHtml cur acc log pairs
      cases cur with
      | none =>
        rw [renderLoop_succ_none]
        split
        · rcases hcb : cb ((sMd.ensureNewPage).readPageBang).1
            ((sHtml.ensureNewPage).readPageBang).1 with e | id <;> simp
        · simp
      | some p =>
        rw [renderLoop_succ_some]
        split
        · rcases hcb : cb ((sMd.ensureNewPage).readPageBang).1
            ((sHtml.ensureNewPage).readPageBang).1 with e | id
          · simp
          · exact ih.2 cb evs _ _ _ _ pairs
        · exact ih.2 cb evs sMd sHtml acc log pairs
    refine ⟨hr, ?_⟩
    intro cb evs sMd sHtml acc log pairs
    cases evs with
    | nil =>
      rw [stepPair_eq, incrementW_nil, incrementW_nil, checkEqual_of_eq rfl]
      exact hr cb [] sMd sHtml none acc log (pairs + 1)
    | cons e rest =>
      rw [stepPair_eq, incW_fst, incW_fst, incW_rest, incW_rest, checkEqual_of_eq rfl]
      exact hr cb rest _ _ (some e.ref) acc log (pairs + 1)

/-! ## Top-level unfolding of renderMatrix -/

theorem renderMatrix_notRoot (tree : DNode) (cb : SendCB) (h : tree.tag ≠ NodeTag.Root) :
    renderMatrix tree cb
      = { result := .error .structural, collected := [], log := [], pairs := 0 } := by
  rw [renderMatrix, if_pos h]

theorem renderMatrix_root (tree : DNode) (cb : SendCB) (h : tree.tag = NodeTag.Root) :
    renderMatrix tree cb
      = stepPair cb (incrementW MARKDOWN_RENDERER) (incrementW HTML_RENDERER)
          ((fringe tree []).length + 1) (fringe tree []) (fringe tree [])
          (PDS.new DEFAULT_PAGE_SIZE) (PDS.new DEFAULT_PAGE_SIZE) [] [] 0 := by
  rw [renderMatrix, if_neg (by simp [h]), renderMatrixCore]

theorem renderMatrixWithLimit_root (limit : Nat) (tree : DNode) (cb : SendCB)
    (h : tree.tag = NodeTag.Root) :
    renderMatrixWithLimit limit tree cb
      = stepPair cb (incrementW MARKDOWN_RENDERER) (incrementW HTML_RENDERER)
          ((fringe tree []).length + 1) (fringe tree []) (fringe tree [])
          (PDS.new limit) (PDS.new limit) [] [] 0 := by
  rw [renderMatrixWithLimit, if_neg (by simp [h]), renderMatrixCore]

/-! ## Claim C1 -/

/-- C1: for every document node whose tag is not `Root`, `renderMatrix`
raises the structural-precondition error before any walker increment is
performed (zero increment pairs) and the send callback is never invoked
(empty invocation log, no partial render); for a node whose tag is
`Root`, the structural error is never raised. -/
theorem claimC1 (tree : DNode) (cb : SendCB) :
    (tree.tag ≠ NodeTag.Root →
      renderMatrix tree cb
        = { result := .error .structural, collected := [], log := [], pairs := 0 }) ∧
    (tree.tag = NodeTag.Root → (renderMatrix tree cb).result ≠ .error .structural) := by
  constructor
  · intro h
    exact renderMatrix_notRoot tree cb h
  · intro h
    rw [renderMatrix_root tree cb h]
    exact (no_structural _).2 cb _ _ _ _ _ _ _ _ _

/-- C1 witness: a `Paragraph`-rooted node is rejected with the
structural error, no callback invocation and no traversal; a
`Root`-rooted node is not rejected. -/
theorem claimC1_witness :
    (renderMatrix (DNode.node NodeTag.Paragraph []) sendOk
      = { result := .error .structural, collected := [], log := [], pairs := 0 }) ∧
    (renderMatrix (DNode.node NodeTag.Root []) sendOk).result ≠ .error .structural :=
  ⟨(claimC1 (DNode.node NodeTag.Paragraph []) sendOk).1 (by decide),
   (claimC1 (DNode.node NodeTag.Root []) sendOk).2 rfl⟩

/-! ## Claim C10 -/

mutual
theorem ensureChild_flatten (acc : List DNode) (x : RawJSX) :
    ensureChild acc x = (flattenRawChild x).map (fun l => acc ++ l) := by
  cases x with
  | str s => rfl
  | num n => rfl
  | node d => rfl
  | other printed => rfl
  | arr xs => exact ensureChildList_flatten acc xs
termination_by sizeOf x

theorem ensureChildList_flatten (acc : List DNode) (xs : List RawJSX) :
    ensureChildList acc xs = (flattenRawList xs).map (fun l => acc ++ l) := by
  cases xs with
  | nil => simp [ensureChildList, flattenRawList, Except.map]
  | cons x rest =>
    rw [ensureChildList, flattenRawList, ensureChild_flatten acc x]
    rcases hfx : flattenRawChild x with e | l
    · simp [Except.map]
    · simp only [Except.map]
      rw [ensureChildList_flatten (acc ++ l) rest]
      rcases hfr : flattenRawList rest with e2 | l2
      · rfl
      · simp [Except.map, List.append_assoc]
termination_by sizeOf xs
end

/-- C10: for every call `JSXFactory(tag, properties, ...children)`, the
result is a new document node with the given tag whose children are, in
order, the flattened raw children: a string child becomes a text leaf
carrying exactly that string, a number child a text leaf carrying its
decimal representation, an array child is flattened recursively in
order, an existing node child is attached as-is, and any other child
raises a `TypeError`. -/
theorem claimC10 (tag : NodeTag) (properties : Option String) (children : List RawJSX) :
    JSXFactory tag properties children
      = (flattenRawList children).map (fun l => DNode.node tag l) := by
  rw [JSXFactory, ensureChildList_flatten]
  rcases h : flattenRawList children with e | l
  · rfl
  · simp [Except.map]

/-! ## Folding a callback over a page schedule -/

theorem sendOutcome_nil (cb : SendCB) : sendOutcome cb [] = ⟨[], none, [], none⟩ := rfl

theorem sendOutcome_ok_char (cb : SendCB) (l : List (Nat × String × String)) :
    (sendOutcome cb l).err = none →
    (sendOutcome cb l).inv = l ∧ (sendOutcome cb l).ids.length = l.length ∧
    ∀ j, j < l.length →
      cb (l.getD j (0, "", "")).2.1 (l.getD j (0, "", "")).2.2
        = .ok ((sendOutcome cb l).ids.getD j "") := by
  induction l with
  | nil =>
    intro _
    exact ⟨rfl, rfl, fun j hj => absurd hj (by simp)⟩
  | cons x rest ih =>
    intro hnone
    rcases x with ⟨k, t, h⟩
    rw [sendOutcome] at hnone ⊢
    rcases hcb : cb t h with e | id
    · rw [hcb] at hnone
      cases hnone
    · rw [hcb] at hnone
      have ihh := ih (by simpa using hnone)
      refine ⟨by simp [ihh.1], by simp [ihh.2.1], ?_⟩
      intro j hj
      cases j with
      | zero => simpa using hcb
      | succ j2 =>
        have := ihh.2.2 j2 (by simpa using hj)
        simpa [List.getD] using this

theorem sendOutcome_fail_char (cb : SendCB) (l : List (Nat × String × String)) (k : Nat)
    (e : String) :
    k < l.length →
    (∀ j, j < k → ∃ id, cb (l.getD j (0, "", "")).2.1 (l.getD j (0, "", "")).2.2 = .ok id) →
    cb (l.getD k (0, "", "")).2.1 (l.getD k (0, "", "")).2.2 = .error e →
    (sendOutcome cb l).err = some e ∧ (sendOutcome cb l).inv = l.take (k + 1) ∧
    (sendOutcome cb l).ids.length = k ∧
    (sendOutcome cb l).failTag = some (l.getD k (0, "", "")).1 ∧
    ∀ j, j < k →
      cb (l.getD j (0, "", "")).2.1 (l.getD j (0, "", "")).2.2
        = .ok ((sendOutcome cb l).ids.getD j "") := by
  induction l generalizing k with
  | nil =>
    intro hk
    simp at hk
  | cons x rest ih =>
    intro hk hok herr
    rcases x with ⟨kk, t, h⟩
    rw [sendOutcome]
    cases k with
    | zero =>
      rw [show ((kk, t, h) :: rest).getD 0 (0, "", "") = (kk, t, h) from rfl] at herr
      rw [herr]
      exact ⟨rfl, rfl, rfl, rfl, fun j hj => absurd hj (by simp)⟩
    | succ k2 =>
      obtain ⟨id0, hid0⟩ := hok 0 (by omega)
      rw [show ((kk, t, h) :: rest).getD 0 (0, "", "") = (kk, t, h) from rfl] at hid0
      rw [hid0]
      have hok2 : ∀ j, j < k2 →
          ∃ id, cb (rest.getD j (0, "", "")).2.1 (rest.getD j (0, "", "")).2.2 = .ok id := by
        intro j hj
        have := hok (j + 1) (by omega)
        simpa [List.getD] using this
      have herr2 : cb (rest.getD k2 (0, "", "")).2.1 (rest.getD k2 (0, "", "")).2.2
          = .error e := by
        simpa [List.getD] using herr
      have ihh := ih k2 (by simpa using hk) hok2 herr2
      refine ⟨ihh.1, ?_, by simpa using ihh.2.2.1, by simpa [List.getD] using ihh.2.2.2.1, ?_⟩
      · rw [show ((kk, t, h) :: rest).take (k2 + 1 + 1) = (kk, t, h) :: rest.take (k2 + 1)
          from rfl]
        simp [ihh.2.1]
      · intro j hj
        cases j with
        | zero => simpa using hid0
        | succ j2 =>
          have := ihh.2.2.2.2 j2 (by omega)
          simpa [List.getD] using this

/-- Two runs of `renderMatrix` over the same tree, one with the real
callback, one with the always-succeeding callback: the real run is the
reference schedule folded through the real callback. -/
theorem renderMatrix_sim (tree : DNode) (cb : SendCB) :
    renderMatrix tree cb
      = simCombine [] [] (sendOutcome cb (renderMatrix tree sendOk).log)
          (renderMatrix tree sendOk) := by
  by_cases h : tree.tag = NodeTag.Root
  · rw [renderMatrix_root tree cb h, renderMatrix_root tree sendOk h]
    exact (sim _).2 cb _ _ _ _ _ _ _ _ _
  · rw [renderMatrix_notRoot tree cb h, renderMatrix_notRoot tree sendOk h]
    rw [sendOutcome_nil]
    rfl

/-- On a successful run, the invocation log is the reference schedule,
there is one identifier per invocation, and the identifiers are the
callback's answers to the logged pages, in send order. -/
theorem run_ok_char (tree : DNode) (cb : SendCB) (ids : List String)
    (h : (renderMatrix tree cb).result = .ok ids) :
    (renderMatrix tree cb).log = (renderMatrix tree sendOk).log ∧
    ids.length = (renderMatrix tree cb).log.length ∧
    ∀ j, j < (renderMatrix tree cb).log.length →
      cb ((renderMatrix tree cb).log.getD j (0, "", "")).2.1
          ((renderMatrix tree cb).log.getD j (0, "", "")).2.2
        = .ok (ids.getD j "") := by
  have hs := renderMatrix_sim tree cb
  rcases herr : (sendOutcome cb (renderMatrix tree sendOk).log).err with _ | e
  · have hchar := sendOutcome_ok_char cb (renderMatrix tree sendOk).log herr
    rw [hs] at h ⊢
    rw [simCombine, herr] at h ⊢
    have hids : ids = (sendOutcome cb (renderMatrix tree sendOk).log).ids := by
      rcases hres : (renderMatrix tree sendOk).result with e2 | ids2
      · rw [hres] at h
        cases h
      · rw [hres] at h
        simpa using h.symm
    subst hids
    simp only [List.nil_append]
    exact ⟨hchar.1, by rw [hchar.1]; exact hchar.2.1, by rw [hchar.1]; exact hchar.2.2⟩
  · exfalso
    rw [hs, simCombine, herr] at h
    cases h

/-! ## Claim C2 -/

/-- C2: during the main loop of `renderMatrix` (an iteration whose
current node is not the terminal marker), if either the HTML stream or
the markdown stream reports a ready page, then both streams are forced
to produce a page (`ensureNewPage` then the non-null read — even if the
other stream has not reached its size threshold), the send callback is
invoked exactly once for this cut with the markdown page text and the
HTML page text so produced, and on success the returned identifier is
appended to the result list. -/
theorem claimC2 (cb : SendCB) (fuel : Nat) (wA wB : List FringeEvent)
    (sMd sHtml : PDS) (p : NodeRef) (acc : List String)
    (log : List (Nat × String × String)) (pairs : Nat)
    (hg : (sHtml.peekPage || sMd.peekPage) = true) :
    (∃ rest,
      (renderLoop cb (incrementW MARKDOWN_RENDERER) (incrementW HTML_RENDERER) (fuel + 1)
        wA wB sMd sHtml (some p) acc log pairs).log
        = log ++ (pairs, ((sMd.ensureNewPage).readPageBang).1,
            ((sHtml.ensureNewPage).readPageBang).1) :: rest) ∧
    (∀ id, cb ((sMd.ensureNewPage).readPageBang).1 ((sHtml.ensureNewPage).readPageBang).1
        = .ok id →
      ∃ rest2,
        (renderLoop cb (incrementW MARKDOWN_RENDERER) (incrementW HTML_RENDERER) (fuel + 1)
          wA wB sMd sHtml (some p) acc log pairs).collected = acc ++ id :: rest2) := by
  rw [renderLoop_succ_some, if_pos hg]
  rcases hcb : cb ((sMd.ensureNewPage).readPageBang).1
      ((sHtml.ensureNewPage).readPageBang).1 with e | id
  · constructor
    · exact ⟨[], by simp⟩
    · intro id hid
      cases hid
  · dsimp only
    rw [(acc_shift fuel).2 cb (incrementW MARKDOWN_RENDERER) (incrementW HTML_RENDERER)
      wA wB ((sMd.ensureNewPage).readPageBang).2 ((sHtml.ensureNewPage).readPageBang).2
      (acc ++ [id])
      (log ++ [(pairs, ((sMd.ensureNewPage).readPageBang).1,
        ((sHtml.ensureNewPage).readPageBang).1)]) pairs]
    constructor
    · exact ⟨(stepPair cb (incrementW MARKDOWN_RENDERER) (incrementW HTML_RENDERER) fuel wA wB
        ((sMd.ensureNewPage).readPageBang).2 ((sHtml.ensureNewPage).readPageBang).2
        [] [] pairs).log, by simp [shiftRes]⟩
    · intro id2 hid2
      cases hid2
      exact ⟨(stepPair cb (incrementW MARKDOWN_RENDERER) (incrementW HTML_RENDERER) fuel wA wB
        ((sMd.ensureNewPage).readPageBang).2 ((sHtml.ensureNewPage).readPageBang).2
        [] [] pairs).collected, by simp [shiftRes]⟩

/-- C2 witness: with the markdown stream holding two committed
characters (below the 20-character threshold, so it does not itself
report a ready page) and the HTML stream holding twenty (ready), the
loop iteration sends exactly one pair of forced pages and appends the
returned identifier. -/
theorem claimC2_witness :
    (PDS.mk 20 ["xxxxxxxxxxxxxxxxxxxx"] "" false).peekPage = true ∧
    (PDS.mk 20 ["ab"] "" false).peekPage = false ∧
    ((∃ rest,
      (renderLoop sendOk (incrementW MARKDOWN_RENDERER) (incrementW HTML_RENDERER) (0 + 1)
        [] [] (PDS.mk 20 ["ab"] "" false) (PDS.mk 20 ["xxxxxxxxxxxxxxxxxxxx"] "" false)
        (some []) [] [] 7).log
        = [] ++ (7, (((PDS.mk 20 ["ab"] "" false).ensureNewPage).readPageBang).1,
            (((PDS.mk 20 ["xxxxxxxxxxxxxxxxxxxx"] "" false).ensureNewPage).readPageBang).1)
          :: rest) ∧
    (∀ id, sendOk (((PDS.mk 20 ["ab"] "" false).ensureNewPage).readPageBang).1
        (((PDS.mk 20 ["xxxxxxxxxxxxxxxxxxxx"] "" false).ensureNewPage).readPageBang).1
        = .ok id →
      ∃ rest2,
        (renderLoop sendOk (incrementW MARKDOWN_RENDERER) (incrementW HTML_RENDERER) (0 + 1)
          [] [] (PDS.mk 20 ["ab"] "" false) (PDS.mk 20 ["xxxxxxxxxxxxxxxxxxxx"] "" false)
          (some []) [] [] 7).collected = [] ++ id :: rest2)) :=
  ⟨by decide, by decide,
    claimC2 sendOk 0 [] [] (PDS.mk 20 ["ab"] "" false)
      (PDS.mk 20 ["xxxxxxxxxxxxxxxxxxxx"] "" false) [] [] [] 7 (by decide)⟩

/-! ## Claim C3 -/

/-- C3: whenever a pair of walker increments (the initial pair before
the loop — `renderMatrixCore` is exactly `stepPair` — or the pair at the
end of any loop iteration) returns values that are not the same node
reference, `renderMatrix`'s machinery raises the unrecoverable lockstep
error immediately: no further increment pairs are performed (the pair
counter stops at this pair) and no further pages are sent (the
invocation log is unchanged).  And for the two real walkers, which agree
at every pair over the shared tree, `renderMatrix` never raises this
error. -/
theorem claimC3 :
    (∀ {σa σb : Type} (cb : SendCB)
      (incA : σa → PDS → Option NodeRef × σa × PDS)
      (incB : σb → PDS → Option NodeRef × σb × PDS)
      (fuel : Nat) (wA : σa) (wB : σb) (sMd sHtml : PDS)
      (acc : List String) (log : List (Nat × String × String)) (pairs : Nat),
      (incB wB sHtml).1 ≠ (incA wA sMd).1 →
      stepPair cb incA incB fuel wA wB sMd sHtml acc log pairs
        = { result := .error .lockstep, collected := acc, log := log, pairs := pairs + 1 }) ∧
    (∀ (tree : DNode) (cb : SendCB), (renderMatrix tree cb).result ≠ .error .lockstep) := by
  constructor
  · intro σa σb cb incA incB fuel wA wB sMd sHtml acc log pairs hne
    rw [stepPair_eq, checkEqual_of_ne hne]
  · intro tree cb
    by_cases hr : tree.tag = NodeTag.Root
    · rw [renderMatrix_root tree cb hr]
      exact (no_lockstep MARKDOWN_RENDERER HTML_RENDERER _).2 cb _ _ _ _ _ _
    · rw [renderMatrix_notRoot tree cb hr]
      simp

/-- C3 witness: two walkers positioned at different node references
make the very next pair fail fast with the lockstep error and no sends;
a real run over a `Root` tree never hits it. -/
theorem claimC3_witness :
    ((incrementW HTML_RENDERER [⟨[1], DNode.leaf NodeTag.TextNode "b", Phase.enter⟩]
        (PDS.new 20)).1
      ≠ (incrementW MARKDOWN_RENDERER [⟨[0], DNode.leaf NodeTag.TextNode "a", Phase.enter⟩]
        (PDS.new 20)).1) ∧
    stepPair sendOk (incrementW MARKDOWN_RENDERER) (incrementW HTML_RENDERER) 5
        [⟨[0], DNode.leaf NodeTag.TextNode "a", Phase.enter⟩]
        [⟨[1], DNode.leaf NodeTag.TextNode "b", Phase.enter⟩]
        (PDS.new 20) (PDS.new 20) [] [] 0
      = { result := .error .lockstep, collected := [], log := [], pairs := 0 + 1 } ∧
    (renderMatrix (DNode.node NodeTag.Root []) sendOk).result ≠ .error .lockstep :=
  ⟨by decide,
    claimC3.1 sendOk (incrementW MARKDOWN_RENDERER) (incrementW HTML_RENDERER) 5
      [⟨[0], DNode.leaf NodeTag.TextNode "a", Phase.enter⟩]
      [⟨[1], DNode.leaf NodeTag.TextNode "b", Phase.enter⟩]
      (PDS.new 20) (PDS.new 20) [] [] 0 (by decide),
    claimC3.2 (DNode.node NodeTag.Root []) sendOk⟩

/-! ## Claim C7 -/

/-- C7 counterexample: the claim says `renderMatrix` is given a maximum
page size and passes the caller-chosen limit to the two streams it
constructs.  It is not: the source constructs both streams with the
stream's own default.  On a two-leaf document, the spec-modelled
orchestrator honouring a caller limit of 3 sends two pages, while the
source `renderMatrix` (which accepts no such input) sends one — so no
caller-chosen limit is in effect. -/
theorem claimC7_counterexample :
    (renderMatrix (DNode.node NodeTag.Root
        [DNode.leaf NodeTag.TextNode "aaa", DNode.leaf NodeTag.TextNode "bbb"])
      sendOk).log.length = 1 ∧
    (renderMatrixWithLimit 3 (DNode.node NodeTag.Root
        [DNode.leaf NodeTag.TextNode "aaa", DNode.leaf NodeTag.TextNode "bbb"])
      sendOk).log.length = 2 ∧
    renderMatrix (DNode.node NodeTag.Root
        [DNode.leaf NodeTag.TextNode "aaa", DNode.leaf NodeTag.TextNode "bbb"]) sendOk
      ≠ renderMatrixWithLimit 3 (DNode.node NodeTag.Root
        [DNode.leaf NodeTag.TextNode "aaa", DNode.leaf NodeTag.TextNode "bbb"]) sendOk :=
  ⟨by decide, by decide, by decide⟩

/-- C7 (amended): `renderMatrix` accepts no maximum-page-size input; it
constructs both paged streams with the stream constructor's default
limit, so it behaves, for every tree and callback, exactly as the
spec-modelled limit-taking orchestrator instantiated at
`DEFAULT_PAGE_SIZE`. -/
theorem claimC7 (tree : DNode) (cb : SendCB) :
    renderMatrix tree cb = renderMatrixWithLimit DEFAULT_PAGE_SIZE tree cb := rfl

/-! ## Claim C5 -/

/-- C5: for every document tree accepted by `renderMatrix`, on a
successful run the concatenation, in send order, of the markdown texts
of all pages passed to the send callback equals the full single-pass
markdown rendering of the tree, and likewise for the HTML texts:
pagination never drops or duplicates content. -/
theorem claimC5 (tree : DNode) (cb : SendCB) (ids : List String)
    (h : (renderMatrix tree cb).result = .ok ids) :
    mdConcat (renderMatrix tree cb).log = fullRender MARKDOWN_RENDERER tree ∧
    htmlConcat (renderMatrix tree cb).log = fullRender HTML_RENDERER tree := by
  by_cases hr : tree.tag = NodeTag.Root
  · rw [renderMatrix_root tree cb hr] at h ⊢
    have hinv := (content_invariant MARKDOWN_RENDERER HTML_RENDERER
        ((fringe tree []).length + 1)).2
      cb (fringe tree []) (PDS.new DEFAULT_PAGE_SIZE) (PDS.new DEFAULT_PAGE_SIZE) [] [] 0
      (by omega) rfl rfl (PDS.wfP_new _) (PDS.wfP_new _) ids h
    constructor
    · rw [hinv.1]
      simp [mdConcat, fullRender]
    · rw [hinv.2]
      simp [htmlConcat, fullRender]
  · rw [renderMatrix_notRoot tree cb hr] at h
    cases h

/-- C5 witness: the two-paragraph hello/world document renders to two
pages whose concatenations are the full renderings in both formats. -/
theorem claimC5_witness :
    mdConcat (renderMatrix (DNode.node NodeTag.Root
        [DNode.node NodeTag.Paragraph [DNode.leaf NodeTag.TextNode "hello"],
         DNode.node NodeTag.Paragraph [DNode.leaf NodeTag.TextNode "world"]]) sendOk).log
      = fullRender MARKDOWN_RENDERER (DNode.node NodeTag.Root
        [DNode.node NodeTag.Paragraph [DNode.leaf NodeTag.TextNode "hello"],
         DNode.node NodeTag.Paragraph [DNode.leaf NodeTag.TextNode "world"]]) ∧
    htmlConcat (renderMatrix (DNode.node NodeTag.Root
        [DNode.node NodeTag.Paragraph [DNode.leaf NodeTag.TextNode "hello"],
         DNode.node NodeTag.Paragraph [DNode.leaf NodeTag.TextNode "world"]]) sendOk).log
      = fullRender HTML_RENDERER (DNode.node NodeTag.Root
        [DNode.node NodeTag.Paragraph [DNode.leaf NodeTag.TextNode "hello"],
         DNode.node NodeTag.Paragraph [DNode.leaf NodeTag.TextNode "world"]]) :=
  claimC5 (DNode.node NodeTag.Root
      [DNode.node NodeTag.Paragraph [DNode.leaf NodeTag.TextNode "hello"],
       DNode.node NodeTag.Paragraph [DNode.leaf NodeTag.TextNode "world"]])
    sendOk ["", ""] (by rfl)

/-! ## Claim C6 -/

/-- C6 counterexample: the empty `Root` document renders below the page
limit in both formats (size 0), yet `renderMatrix` invokes the send
callback zero times, not exactly once, and produces no page. -/
theorem claimC6_counterexample :
    (fullRender MARKDOWN_RENDERER (DNode.node NodeTag.Root [])).length < DEFAULT_PAGE_SIZE ∧
    (fullRender HTML_RENDERER (DNode.node NodeTag.Root [])).length < DEFAULT_PAGE_SIZE ∧
    (renderMatrix (DNode.node NodeTag.Root []) sendOk).log.length = 0 ∧
    (renderMatrix (DNode.node NodeTag.Root []) sendOk).result = .ok [] := by
  refine ⟨by decide, by decide, by decide, by decide⟩

/-- C6 (amended): for every `Root` document tree whose rendered size in
both formats is below the page limit and which produces renderable
content in at least one format, `renderMatrix` produces exactly one
page, containing the full rendered content of both formats; the send
callback is invoked exactly once, at the final flush after both walkers
reach the terminal marker (the single log entry's pair tag is the total
number of increment pairs, one beyond the fringe length). -/
theorem claimC6 (tree : DNode) (cb : SendCB)
    (hr : tree.tag = NodeTag.Root)
    (hlM : (fullRender MARKDOWN_RENDERER tree).length < DEFAULT_PAGE_SIZE)
    (hlH : (fullRender HTML_RENDERER tree).length < DEFAULT_PAGE_SIZE)
    (hne : ¬ (fullRender MARKDOWN_RENDERER tree = "" ∧ fullRender HTML_RENDERER tree = "")) :
    (renderMatrix tree cb).log
      = [((fringe tree []).length + 1, fullRender MARKDOWN_RENDERER tree,
          fullRender HTML_RENDERER tree)] ∧
    (∀ id, cb (fullRender MARKDOWN_RENDERER tree) (fullRender HTML_RENDERER tree) = .ok id →
      (renderMatrix tree cb).result = .ok [id]) := by
  rw [renderMatrix_root tree cb hr]
  have hsmall := (small_run MARKDOWN_RENDERER HTML_RENDERER ((fringe tree []).length + 1)).2.2
    cb (fringe tree []) (PDS.new DEFAULT_PAGE_SIZE) (PDS.new DEFAULT_PAGE_SIZE) [] [] 0
    (by omega) rfl rfl (PDS.wfP_new _) (PDS.wfP_new _)
    (by simpa [fullRender] using hlM) (by simpa [fullRender] using hlH)
  have hfm : (PDS.new DEFAULT_PAGE_SIZE).content ++ emitAll MARKDOWN_RENDERER (fringe tree [])
      = fullRender MARKDOWN_RENDERER tree := by
    simp [fullRender]
  have hfh : (PDS.new DEFAULT_PAGE_SIZE).content ++ emitAll HTML_RENDERER (fringe tree [])
      = fullRender HTML_RENDERER tree := by
    simp [fullRender]
  rw [hfm, hfh] at hsmall
  have h2 := hsmall.2 hne
  constructor
  · simpa using h2.1
  · intro id hid
    rw [h2.2.2.1 id hid]
    simp

/-- C6 witness: a `Root` document with a two-character leaf renders
below the limit, yields exactly one final-flush page holding the full
content of both formats, and the callback is invoked exactly once. -/
theorem claimC6_witness :
    ((renderMatrix (DNode.node NodeTag.Root [DNode.leaf NodeTag.TextNode "hi"]) sendOk).log
      = [((fringe (DNode.node NodeTag.Root [DNode.leaf NodeTag.TextNode "hi"]) []).length + 1,
          fullRender MARKDOWN_RENDERER (DNode.node NodeTag.Root [DNode.leaf NodeTag.TextNode "hi"]),
          fullRender HTML_RENDERER (DNode.node NodeTag.Root [DNode.leaf NodeTag.TextNode "hi"]))] ∧
    (∀ id, sendOk (fullRender MARKDOWN_RENDERER
          (DNode.node NodeTag.Root [DNode.leaf NodeTag.TextNode "hi"]))
        (fullRender HTML_RENDERER (DNode.node NodeTag.Root [DNode.leaf NodeTag.TextNode "hi"]))
        = .ok id →
      (renderMatrix (DNode.node NodeTag.Root [DNode.leaf NodeTag.TextNode "hi"]) sendOk).result
        = .ok [id])) :=
  claimC6 (DNode.node NodeTag.Root [DNode.leaf NodeTag.TextNode "hi"]) sendOk rfl
    (by decide) (by decide) (by decide)

/-! ## Claim C9 -/

/-- C9: for every accepted (`Root`) document tree that produces no
renderable content in either format, `renderMatrix` invokes the send
callback zero times and returns the empty sequence of identifiers; and
in general a successful run returns exactly one identifier per page
sent. -/
theorem claimC9 :
    (∀ (tree : DNode) (cb : SendCB), tree.tag = NodeTag.Root →
      fullRender MARKDOWN_RENDERER tree = "" → fullRender HTML_RENDERER tree = "" →
      (renderMatrix tree cb).log = [] ∧ (renderMatrix tree cb).result = .ok []) ∧
    (∀ (tree : DNode) (cb : SendCB) (ids : List String),
      (renderMatrix tree cb).result = .ok ids →
      ids.length = (renderMatrix tree cb).log.length) := by
  constructor
  · intro tree cb hr hM hH
    rw [renderMatrix_root tree cb hr]
    have hsmall := (small_run MARKDOWN_RENDERER HTML_RENDERER ((fringe tree []).length + 1)).2.2
      cb (fringe tree []) (PDS.new DEFAULT_PAGE_SIZE) (PDS.new DEFAULT_PAGE_SIZE) [] [] 0
      (by omega) rfl rfl (PDS.wfP_new _) (PDS.wfP_new _)
      (by simp [fullRender] at hM; simp [hM, PDS.new, PDS.content, DEFAULT_PAGE_SIZE])
      (by simp [fullRender] at hH; simp [hH, PDS.new, PDS.content, DEFAULT_PAGE_SIZE])
    have h1 := hsmall.1 (by constructor <;> simp [fullRender] at hM hH <;> simp [hM, hH])
    rw [h1]
    exact ⟨rfl, rfl⟩
  · intro tree cb ids h
    exact (run_ok_char tree cb ids h).2.1

/-- C9 witness: the bare `Root` node renders to nothing in both formats;
the callback is never invoked and the result is the empty sequence.  The
hello/world document's successful run returns one identifier per page. -/
theorem claimC9_witness :
    ((renderMatrix (DNode.node NodeTag.Root []) sendOk).log = [] ∧
     (renderMatrix (DNode.node NodeTag.Root []) sendOk).result = .ok []) ∧
    (["", ""] : List String).length
      = (renderMatrix (DNode.node NodeTag.Root
          [DNode.node NodeTag.Paragraph [DNode.leaf NodeTag.TextNode "hello"],
           DNode.node NodeTag.Paragraph [DNode.leaf NodeTag.TextNode "world"]]) sendOk).log.length :=
  ⟨claimC9.1 (DNode.node NodeTag.Root []) sendOk rfl (by decide) (by decide),
   claimC9.2 (DNode.node NodeTag.Root
      [DNode.node NodeTag.Paragraph [DNode.leaf NodeTag.TextNode "hello"],
       DNode.node NodeTag.Paragraph [DNode.leaf NodeTag.TextNode "world"]]) sendOk
     ["", ""] (by rfl)⟩

/-! ## Claim C4 -/

/-- C4: if the send callback succeeds on the first `k` pages of a run's
page schedule and fails with `e` on page `k`, then `renderMatrix`
propagates that failure unchanged (`sendFailure e`), makes no further
callback invocations (the log is exactly the first `k + 1` scheduled
pages), performs no further traversal steps (the total pair count stops
at the failing send's pair tag), and the identifiers collected — not
rolled back — are exactly the callback's answers for the `k` pages sent
before the failing one. -/
theorem claimC4 (tree : DNode) (cb : SendCB) (k : Nat) (e : String)
    (hk : k < (renderMatrix tree sendOk).log.length)
    (hok : ∀ j, j < k → ∃ id,
      cb ((renderMatrix tree sendOk).log.getD j (0, "", "")).2.1
         ((renderMatrix tree sendOk).log.getD j (0, "", "")).2.2 = .ok id)
    (herr : cb ((renderMatrix tree sendOk).log.getD k (0, "", "")).2.1
        ((renderMatrix tree sendOk).log.getD k (0, "", "")).2.2 = .error e) :
    (renderMatrix tree cb).result = .error (.sendFailure e) ∧
    (renderMatrix tree cb).log = (renderMatrix tree sendOk).log.take (k + 1) ∧
    (renderMatrix tree cb).collected.length = k ∧
    (∀ j, j < k →
      cb ((renderMatrix tree sendOk).log.getD j (0, "", "")).2.1
         ((renderMatrix tree sendOk).log.getD j (0, "", "")).2.2
        = .ok ((renderMatrix tree cb).collected.getD j "")) ∧
    (renderMatrix tree cb).pairs = ((renderMatrix tree sendOk).log.getD k (0, "", "")).1 := by
  have hchar := sendOutcome_fail_char cb (renderMatrix tree sendOk).log k e hk hok herr
  have hs := renderMatrix_sim tree cb
  rw [simCombine, hchar.1] at hs
  rw [hs]
  refine ⟨rfl, by simpa using hchar.2.1, by simpa using hchar.2.2.1, ?_, ?_⟩
  · intro j hj
    have := hchar.2.2.2.2 j hj
    simpa using this
  · rw [hchar.2.2.2.1]
    rfl

/-- C4 witness: a three-page document; the callback succeeds on the
first page and fails on the second with "boom".  The run propagates the
failure, logs exactly two invocations, collects exactly the one
identifier of the first page, and stops at the failing send's pair
tag. -/
theorem claimC4_witness :
    (renderMatrix (DNode.node NodeTag.Root
        [DNode.leaf NodeTag.TextNode "aaaaaaaaaaaaaaaaaaaa",
         DNode.leaf NodeTag.TextNode "bbbbbbbbbbbbbbbbbbbb",
         DNode.leaf NodeTag.TextNode "cccccccccccccccccccc"])
      (fun t _ => if t = "bbbbbbbbbbbbbbbbbbbb" then .error "boom"
        else .ok ("id" ++ t.take 1))).result = .error (.sendFailure "boom") ∧
    (renderMatrix (DNode.node NodeTag.Root
        [DNode.leaf NodeTag.TextNode "aaaaaaaaaaaaaaaaaaaa",
         DNode.leaf NodeTag.TextNode "bbbbbbbbbbbbbbbbbbbb",
         DNode.leaf NodeTag.TextNode "cccccccccccccccccccc"])
      (fun t _ => if t = "bbbbbbbbbbbbbbbbbbbb" then .error "boom"
        else .ok ("id" ++ t.take 1))).log
      = (renderMatrix (DNode.node NodeTag.Root
        [DNode.leaf NodeTag.TextNode "aaaaaaaaaaaaaaaaaaaa",
         DNode.leaf NodeTag.TextNode "bbbbbbbbbbbbbbbbbbbb",
         DNode.leaf NodeTag.TextNode "cccccccccccccccccccc"]) sendOk).log.take (1 + 1) ∧
    (renderMatrix (DNode.node NodeTag.Root
        [DNode.leaf NodeTag.TextNode "aaaaaaaaaaaaaaaaaaaa",
         DNode.leaf NodeTag.TextNode "bbbbbbbbbbbbbbbbbbbb",
         DNode.leaf NodeTag.TextNode "cccccccccccccccccccc"])
      (fun t _ => if t = "bbbbbbbbbbbbbbbbbbbb" then .error "boom"
        else .ok ("id" ++ t.take 1))).collected.length = 1 ∧
    (∀ j, j < 1 →
      (fun (t : String) (_ : String) => if t = "bbbbbbbbbbbbbbbbbbbb"
          then (.error "boom" : Except String String)
        else .ok ("id" ++ t.take 1))
        (((renderMatrix (DNode.node NodeTag.Root
          [DNode.leaf NodeTag.TextNode "aaaaaaaaaaaaaaaaaaaa",
           DNode.leaf NodeTag.TextNode "bbbbbbbbbbbbbbbbbbbb",
           DNode.leaf NodeTag.TextNode "cccccccccccccccccccc"]) sendOk).log.getD j
            (0, "", "")).2.1)
        (((renderMatrix (DNode.node NodeTag.Root
          [DNode.leaf NodeTag.TextNode "aaaaaaaaaaaaaaaaaaaa",
           DNode.leaf NodeTag.TextNode "bbbbbbbbbbbbbbbbbbbb",
           DNode.leaf NodeTag.TextNode "cccccccccccccccccccc"]) sendOk).log.getD j
            (0, "", "")).2.2)
        = .ok ((renderMatrix (DNode.node NodeTag.Root
          [DNode.leaf NodeTag.TextNode "aaaaaaaaaaaaaaaaaaaa",
           DNode.leaf NodeTag.TextNode "bbbbbbbbbbbbbbbbbbbb",
           DNode.leaf NodeTag.TextNode "cccccccccccccccccccc"])
          (fun t _ => if t = "bbbbbbbbbbbbbbbbbbbb" then .error "boom"
            else .ok ("id" ++ t.take 1))).collected.getD j "")) ∧
    (renderMatrix (DNode.node NodeTag.Root
        [DNode.leaf NodeTag.TextNode "aaaaaaaaaaaaaaaaaaaa",
         DNode.leaf NodeTag.TextNode "bbbbbbbbbbbbbbbbbbbb",
         DNode.leaf NodeTag.TextNode "cccccccccccccccccccc"])
      (fun t _ => if t = "bbbbbbbbbbbbbbbbbbbb" then .error "boom"
        else .ok ("id" ++ t.take 1))).pairs
      = ((renderMatrix (DNode.node NodeTag.Root
        [DNode.leaf NodeTag.TextNode "aaaaaaaaaaaaaaaaaaaa",
         DNode.leaf NodeTag.TextNode "bbbbbbbbbbbbbbbbbbbb",
         DNode.leaf NodeTag.TextNode "cccccccccccccccccccc"]) sendOk).log.getD 1
          (0, "", "")).1 :=
  claimC4 (DNode.node NodeTag.Root
      [DNode.leaf NodeTag.TextNode "aaaaaaaaaaaaaaaaaaaa",
       DNode.leaf NodeTag.TextNode "bbbbbbbbbbbbbbbbbbbb",
       DNode.leaf NodeTag.TextNode "cccccccccccccccccccc"])
    (fun t _ => if t = "bbbbbbbbbbbbbbbbbbbb" then .error "boom" else .ok ("id" ++ t.take 1))
    1 "boom" (by decide)
    (by
      intro j hj
      have hj0 : j = 0 := by omega
      subst hj0
      exact ⟨"ida", by rfl⟩)
    (by rfl)

/-! ## Claim C8 -/

/-- C8: `renderMatrix` never reads a page ahead of sending it.  The pair
tags of the invocation log are strictly increasing (each send happens
before the increments that follow it); the pages sent through any
invocation concatenate, in each format, to the rendering of exactly the
fringe prefix consumed by the increments performed before that send —
so a page's content never depends on later increments; and on a
successful run the returned identifiers are in send order, one per page,
each the callback's answer to the corresponding logged page. -/
theorem claimC8 (tree : DNode) (cb : SendCB) :
    List.Pairwise (· < ·) ((renderMatrix tree cb).log.map (fun x => x.1)) ∧
    (∀ j, j < (renderMatrix tree cb).log.length →
      mdConcat ((renderMatrix tree cb).log.take (j + 1))
        = emitAll MARKDOWN_RENDERER
            ((fringe tree []).take (((renderMatrix tree cb).log.getD j (0, "", "")).1)) ∧
      htmlConcat ((renderMatrix tree cb).log.take (j + 1))
        = emitAll HTML_RENDERER
            ((fringe tree []).take (((renderMatrix tree cb).log.getD j (0, "", "")).1))) ∧
    (∀ ids, (renderMatrix tree cb).result = .ok ids →
      ids.length = (renderMatrix tree cb).log.length ∧
      ∀ j, j < (renderMatrix tree cb).log.length →
        cb (((renderMatrix tree cb).log.getD j (0, "", "")).2.1)
            (((renderMatrix tree cb).log.getD j (0, "", "")).2.2)
          = .ok (ids.getD j "")) := by
  refine ⟨?_, ?_, ?_⟩
  · by_cases hr : tree.tag = NodeTag.Root
    · rw [renderMatrix_root tree cb hr]
      have h := (strong_run MARKDOWN_RENDERER HTML_RENDERER ((fringe tree []).length + 1)).2.2
        cb [] (fringe tree []) (PDS.new DEFAULT_PAGE_SIZE) (PDS.new DEFAULT_PAGE_SIZE) [] [] 0
        (by omega) rfl rfl (PDS.wfP_new _) (PDS.wfP_new _) (by simp [mdConcat]; rfl)
        (by simp [htmlConcat]; rfl) rfl (by simp) (by simp) (by simp)
      exact h.1
    · rw [renderMatrix_notRoot tree cb hr]
      simp
  · by_cases hr : tree.tag = NodeTag.Root
    · rw [renderMatrix_root tree cb hr]
      have h := (strong_run MARKDOWN_RENDERER HTML_RENDERER ((fringe tree []).length + 1)).2.2
        cb [] (fringe tree []) (PDS.new DEFAULT_PAGE_SIZE) (PDS.new DEFAULT_PAGE_SIZE) [] [] 0
        (by omega) rfl rfl (PDS.wfP_new _) (PDS.wfP_new _) (by simp [mdConcat]; rfl)
        (by simp [htmlConcat]; rfl) rfl (by simp) (by simp) (by simp)
      have h2 := h.2
      simpa using h2
    · rw [renderMatrix_notRoot tree cb hr]
      intro j hj
      simp at hj
  · intro ids h
    have hchar := run_ok_char tree cb ids h
    exact ⟨hchar.2.1, hchar.2.2⟩

/-- C8 witness: the hello/world document's run has strictly increasing
pair tags, its first page covers exactly the fringe prefix consumed
before its send in both formats, and the successful run's identifiers
answer the logged pages one for one. -/
theorem claimC8_witness :
    List.Pairwise (· < ·) ((renderMatrix (DNode.node NodeTag.Root
        [DNode.node NodeTag.Paragraph [DNode.leaf NodeTag.TextNode "hello"],
         DNode.node NodeTag.Paragraph [DNode.leaf NodeTag.TextNode "world"]])
      sendOk).log.map (fun x => x.1)) ∧
    (mdConcat ((renderMatrix (DNode.node NodeTag.Root
        [DNode.node NodeTag.Paragraph [DNode.leaf NodeTag.TextNode "hello"],
         DNode.node NodeTag.Paragraph [DNode.leaf NodeTag.TextNode "world"]])
        sendOk).log.take (0 + 1))
      = emitAll MARKDOWN_RENDERER ((fringe (DNode.node NodeTag.Root
          [DNode.node NodeTag.Paragraph [DNode.leaf NodeTag.TextNode "hello"],
           DNode.node NodeTag.Paragraph [DNode.leaf NodeTag.TextNode "world"]]) []).take
            (((renderMatrix (DNode.node NodeTag.Root
              [DNode.node NodeTag.Paragraph [DNode.leaf NodeTag.TextNode "hello"],
               DNode.node NodeTag.Paragraph [DNode.leaf NodeTag.TextNode "world"]])
              sendOk).log.getD 0 (0, "", "")).1)) ∧
     htmlConcat ((renderMatrix (DNode.node NodeTag.Root
        [DNode.node NodeTag.Paragraph [DNode.leaf NodeTag.TextNode "hello"],
         DNode.node NodeTag.Paragraph [DNode.leaf NodeTag.TextNode "world"]])
        sendOk).log.take (0 + 1))
      = emitAll HTML_RENDERER ((fringe (DNode.node NodeTag.Root
          [DNode.node NodeTag.Paragraph [DNode.leaf NodeTag.TextNode "hello"],
           DNode.node NodeTag.Paragraph [DNode.leaf NodeTag.TextNode "world"]]) []).take
            (((renderMatrix (DNode.node NodeTag.Root
              [DNode.node NodeTag.Paragraph [DNode.leaf NodeTag.TextNode "hello"],
               DNode.node NodeTag.Paragraph [DNode.leaf NodeTag.TextNode "world"]])
              sendOk).log.getD 0 (0, "", "")).1))) ∧
    ((["", ""] : List String).length = (renderMatrix (DNode.node NodeTag.Root
        [DNode.node NodeTag.Paragraph [DNode.leaf NodeTag.TextNode "hello"],
         DNode.node NodeTag.Paragraph [DNode.leaf NodeTag.TextNode "world"]])
      sendOk).log.length ∧
     ∀ j, j < (renderMatrix (DNode.node NodeTag.Root
        [DNode.node NodeTag.Paragraph [DNode.leaf NodeTag.TextNode "hello"],
         DNode.node NodeTag.Paragraph [DNode.leaf NodeTag.TextNode "world"]])
      sendOk).log.length →
      sendOk (((renderMatrix (DNode.node NodeTag.Root
          [DNode.node NodeTag.Paragraph [DNode.leaf NodeTag.TextNode "hello"],
           DNode.node NodeTag.Paragraph [DNode.leaf NodeTag.TextNode "world"]])
        sendOk).log.getD j (0, "", "")).2.1)
        (((renderMatrix (DNode.node NodeTag.Root
          [DNode.node NodeTag.Paragraph [DNode.leaf NodeTag.TextNode "hello"],
           DNode.node NodeTag.Paragraph [DNode.leaf NodeTag.TextNode "world"]])
        sendOk).log.getD j (0, "", "")).2.2)
        = .ok ((["", ""] : List String).getD j "")) :=
  ⟨(claimC8 (DNode.node NodeTag.Root
      [DNode.node NodeTag.Paragraph [DNode.leaf NodeTag.TextNode "hello"],
       DNode.node NodeTag.Paragraph [DNode.leaf NodeTag.TextNode "world"]]) sendOk).1,
   (claimC8 (DNode.node NodeTag.Root
      [DNode.node NodeTag.Paragraph [DNode.leaf NodeTag.TextNode "hello"],
       DNode.node NodeTag.Paragraph [DNode.leaf NodeTag.TextNode "world"]]) sendOk).2.1
     0 (by decide),
   (claimC8 (DNode.node NodeTag.Root
      [DNode.node NodeTag.Paragraph [DNode.leaf NodeTag.TextNode "hello"],
       DNode.node NodeTag.Paragraph [DNode.leaf NodeTag.TextNode "world"]]) sendOk).2.2
     ["", ""] (by rfl)⟩

end DeadDocument
